import Mathlib

/-!
Shallow embedding of `src/x_perceiver/models/perceiver.py` (Perceiver and
MMPerceiver with their helpers).  Scalars of the tensor library are modelled
as rationals; transcendental functions (`sin`, `cos`) and the float constant
`pi` are passed as parameters, since the claims under study only depend on
the structure of the computation, never on concrete sine values.  Python
dynamic errors (AssertionError, TypeError, IndexError, NotImplementedError,
ValueError, RuntimeError, NameError) are modelled with an explicit error
type and `Except`.
-/

/-- Python runtime errors that the embedded code can raise. -/
inductive PyErr where
  | assertionError (msg : String)
  | typeError
  | indexError
  | notImplementedError
  | valueError
  | runtimeError
  | nameError
  deriving DecidableEq, Repr

/-- Whether an error is an `AssertionError`. -/
def PyErr.isAssert : PyErr → Bool
  | .assertionError _ => true
  | _ => false

/-- An entry of the `input_axes` list of `MMPerceiver.__init__`.  Python is
dynamically typed: callers may pass either an int (the number of axes, as in
`Perceiver`'s `input_axis`) or a tuple of axis sizes (as in the spec's
end-to-end scenario `input_axes=[(10,), (5,)]`).  Both are modelled. -/
inductive AxSpec where
  | int (n : Nat)
  | tuple (t : List Nat)
  deriving DecidableEq, Repr

/-- Python `axis * k` for `axis` an int or a tuple: int multiplication or
tuple repetition (line 325 of the source). -/
def pyMulNat (a : AxSpec) (k : Nat) : AxSpec :=
  match a with
  | .int n => .int (n * k)
  | .tuple t => .tuple (List.flatten (List.replicate k t))

/-- Python `f_channels + i_channels` (line 327): int + int is addition;
tuple + int raises `TypeError`. -/
def pyAddChannels (f : AxSpec) (c : Nat) : Except PyErr Nat :=
  match f with
  | .int n => .ok (n + c)
  | .tuple _ => .error .typeError

/-- Python `len(...)` applied to an `input_axes` entry (line 388):
`len` of a tuple is its length, `len` of an int raises `TypeError`. -/
def pyLenAx (a : AxSpec) : Except PyErr Nat :=
  match a with
  | .int _ => .error .typeError
  | .tuple t => .ok t.length

/-- `torch.linspace start stop steps` as a list of rationals:
`steps` evenly spaced points from `start` to `stop` (a single point is
`start`; zero points is the empty tensor). -/
def torchLinspace (start stop : ℚ) (steps : Nat) : List ℚ :=
  (List.range steps).map (fun (i : Nat) =>
    if steps ≤ 1 then start else start + (stop - start) * (i : ℚ) / ((steps : ℚ) - 1))

/-- `fourier_encode` (source lines 38-48) viewed at one scalar position `x`
of the input tensor: the code unsqueezes, multiplies by
`torch.linspace 1 (max_freq/2) num_bands` and by `pi`, applies `sin` and
`cos` elementwise, concatenates, and appends the original value.  All the
tensor ops are elementwise over positions, so per scalar position the result
is this list. -/
def fourier_encode (sin cos : ℚ → ℚ) (piQ : ℚ) (x : ℚ) (max_freq : ℚ)
    (num_bands : Nat) : List ℚ :=
  ((torchLinspace 1 (max_freq / 2) num_bands).map (fun s => sin (x * s * piQ)) ++
   (torchLinspace 1 (max_freq / 2) num_bands).map (fun s => cos (x * s * piQ))) ++
  [x]

/-- A (row-major, flat) tensor: a shape and the flattened data. -/
structure PyTensor where
  shape : List Nat
  data : List ℚ
  deriving DecidableEq, Repr

/-- Split a list into consecutive chunks of size `c` (row-major last-dim
chunks of a tensor whose last dimension is `c`).  `fuel` bounds recursion. -/
def chunksAux (c : Nat) : Nat → List ℚ → List (List ℚ)
  | 0, _ => []
  | _ + 1, [] => []
  | fuel + 1, l => l.take c :: chunksAux c fuel (l.drop c)

/-- Split a list into consecutive chunks of size `c`. -/
def chunks (c : Nat) (l : List ℚ) : List (List ℚ) :=
  chunksAux c l.length l

/-- `torch.cat((t, u), dim = -1)` for two tensors of the same rank whose
dimensions agree except possibly the last: interleave last-dim chunks.
Rank or leading-dimension disagreement raises `RuntimeError`. -/
def catLastDim (t u : PyTensor) : Except PyErr PyTensor :=
  if t.shape.length = u.shape.length ∧ t.shape.dropLast = u.shape.dropLast ∧
      t.shape.length ≠ 0 then
    let c := t.shape.getLast!
    let d := u.shape.getLast!
    .ok { shape := t.shape.dropLast ++ [c + d],
          data := List.flatten ((chunks c t.data).zipWith (fun a b => a ++ b) (chunks d u.data)) }
  else .error .runtimeError

/-- `rearrange(data, 'b ... d -> b (...) d')`: flatten all middle axes into
one sequence axis.  A row-major flat tensor's data is unchanged. -/
def flattenMiddle (t : PyTensor) : PyTensor :=
  { shape := [t.shape.headD 0, ((t.shape.drop 1).dropLast).prod, t.shape.getLast! ],
    data := t.data }

/-!
## `MMPerceiver.__init__` (source lines 286-375)

Modules are identified structurally: a cross-attention block records the
query and context dimensions of its `PreNorm`/`Attention` pair, a latent
self-attention or feed-forward block records its dimension, and
`nn.ModuleList` is an explicit constructor.  `nn.ModuleList` has no own
`forward`: a call falls through to `nn.Module`'s placeholder
`forward(self, *input)`, which accepts positional arguments only — so a
call carrying the `context=`/`mask=` keywords of the layer loop fails
argument binding with `TypeError`, while a bare positional call reaches
the placeholder body and raises `NotImplementedError`.
-/

/-- A pytorch module as stored inside `MMPerceiver.layers`. -/
inductive PyModule where
  /-- `PreNorm(latent_dim, Attention(latent_dim, ctx_dim, ...), context_dim = ctx_dim)` -/
  | preNormAttn (queryDim ctxDim : Nat)
  /-- `PreNorm(latent_dim, Attention(latent_dim, heads = latent_heads, ...))` -/
  | preNormSelfAttn (dim : Nat)
  /-- `PreNorm(latent_dim, FeedForward(latent_dim, ...))` -/
  | preNormFF (dim : Nat)
  /-- `nn.ModuleList([...])` -/
  | mlist (ms : List PyModule)

/-- A memoization cache of one `cache_fn`-wrapped factory: an association
list from the `key` argument (`None` or an int) to the cached module. -/
abbrev MCache := List (Option Nat × PyModule)

/-- Lookup in a `cache_fn` cache. -/
def mcLookup (k : Option Nat) : MCache → Option PyModule
  | [] => none
  | (k', v) :: rest => if k = k' then some v else mcLookup k rest

/-- `cache_fn` semantics (source lines 24-36): with `_cache = False` the
factory runs directly; otherwise the result is looked up under `key`,
computed and stored on a miss. -/
def cacheCallE (f : Unit → Except PyErr PyModule) (uc : Bool) (key : Option Nat)
    (cache : MCache) : Except PyErr (PyModule × MCache) :=
  if uc then
    match mcLookup key cache with
    | some m => .ok (m, cache)
    | none =>
      match f () with
      | .ok m => .ok (m, (key, m) :: cache)
      | .error e => .error e
  else
    match f () with
    | .ok m => .ok (m, cache)
    | .error e => .error e

/-- Body of the lambda of source line 336, evaluated with the *current*
value of `__init__`'s local variable `i` (late binding: the lambda closes
over the variable, not its value at lambda-creation time).  `input_dims[i]`
out of range raises `IndexError`. -/
def mkCrossAttn (latent_dim : Nat) (input_dims : List Nat) (i : Nat) :
    Except PyErr PyModule :=
  match input_dims.get? i with
  | some d => .ok (.preNormAttn latent_dim d)
  | none => .error .indexError

/-- Mutable construction state: one cache per per-modality cross-attention
factory, plus the caches of `get_cross_ff`, `get_latent_attn`,
`get_latent_ff`. -/
structure MMSt where
  cross : List MCache
  crossFf : MCache
  latAttn : MCache
  latFf : MCache

/-- The `self_attns` blocks of one layer (source lines 353-359): for
`block_ind in range(self_per_cross_attn)`, one latent self-attention and
one latent feed-forward, each cached under `key = block_ind`. -/
def mmBuildSelf (latent_dim : Nat) (uc : Bool) :
    Nat → Nat → MCache → MCache → (List PyModule × MCache × MCache)
  | 0, _, la, lf => ([], la, lf)
  | r + 1, bi, la, lf =>
    match cacheCallE (fun _ => .ok (.preNormSelfAttn latent_dim)) uc (some bi) la with
    | .error _ => ([], la, lf)
    | .ok (a, la') =>
      match cacheCallE (fun _ => .ok (.preNormFF latent_dim)) uc (some bi) lf with
      | .error _ => ([], la', lf)
      | .ok (f, lf') =>
        let (rest, la'', lf'') := mmBuildSelf latent_dim uc r (bi + 1) la' lf'
        (.mlist [a, f] :: rest, la'', lf'')

/-- The `cross_list` of one layer (source lines 361-364): for each modality
`m`, a cross-attention block (that modality's cached factory, `key = None`)
followed by a cross feed-forward block (shared cache, `key = None`).  The
cross-attention factory reads `__init__`'s `i`, whose current value is the
depth-loop index `dcur`. -/
def mmBuildCross (latent_dim : Nat) (input_dims : List Nat) (dcur : Nat) (uc : Bool) :
    Nat → Nat → List MCache → MCache →
    Except PyErr (List PyModule × List MCache × MCache)
  | 0, _, ccs, ffc => .ok ([], ccs, ffc)
  | r + 1, m, ccs, ffc => do
    let cache := (ccs.get? m).getD []
    let (attn, cache') ← cacheCallE (fun _ => mkCrossAttn latent_dim input_dims dcur) uc none cache
    let ccs' := ccs.set m cache'
    let (ff, ffc') ← cacheCallE (fun _ => .ok (.preNormFF latent_dim)) uc none ffc
    let (rest, ccs'', ffc'') ← mmBuildCross latent_dim input_dims dcur uc r (m + 1) ccs' ffc'
    .ok (attn :: ff :: rest, ccs'', ffc'')

/-- One layer of `MMPerceiver.__init__`'s loop at depth index `d`
(source lines 349-369): `should_cache = i > 0 and weight_tie_layers`, the
`self_attns` list, then the cross list, assembled as
`nn.ModuleList([*cross_list, self_attns])`. -/
def mmBuildLayer (latent_dim : Nat) (input_dims : List Nat) (mods S : Nat)
    (tie : Bool) (d : Nat) (st : MMSt) : Except PyErr (PyModule × MMSt) := do
  let uc := decide (0 < d) && tie
  let (selfs, la, lf) := mmBuildSelf latent_dim uc S 0 st.latAttn st.latFf
  let (cross, ccs, ffc) ← mmBuildCross latent_dim input_dims d uc mods 0 st.cross st.crossFf
  .ok (.mlist (cross ++ [.mlist selfs]), ⟨ccs, ffc, la, lf⟩)

/-- The layers loop `for i in range(depth)` starting at depth index `d`
with `r` iterations remaining. -/
def mmBuildLayers (latent_dim : Nat) (input_dims : List Nat) (mods S : Nat)
    (tie : Bool) : Nat → Nat → MMSt → Except PyErr (List PyModule × MMSt)
  | 0, _, st => .ok ([], st)
  | r + 1, d, st => do
    let (l, st') ← mmBuildLayer latent_dim input_dims mods S tie d st
    let (ls, st'') ← mmBuildLayers latent_dim input_dims mods S tie r (d + 1) st'
    .ok (l :: ls, st'')

/-- The constructor arguments of `MMPerceiver` that matter to the claims. -/
structure MMConfig where
  num_freq_bands : Nat
  depth : Nat
  modalities : Nat
  max_freq : ℚ
  input_channels : List Nat
  input_axes : List AxSpec
  num_latents : Nat
  latent_dim : Nat
  num_classes : Nat
  weight_tie_layers : Bool
  fourier_encode_data : Bool
  self_per_cross_attn : Nat
  final_classifier_head : Bool

/-- Message of the assert at source line 310. -/
def mmLenMsg1 : String := "input channels and input axis must be of the same length"

/-- Message of the assert at source line 311. -/
def mmLenMsg2 : String := "input axis must be of the same length as the number of modalities"

/-- `fourier_channels` (source lines 322-325): per `input_axes` entry,
`axis * ((num_freq_bands * 2) + 1)` if Fourier encoding is on else `0`. -/
def mmFourierChannels (cfg : MMConfig) : List AxSpec :=
  cfg.input_axes.map (fun a =>
    if cfg.fourier_encode_data then pyMulNat a (cfg.num_freq_bands * 2 + 1) else .int 0)

/-- `input_dims` (source lines 326-327): elementwise
`f_channels + i_channels` over the zip (`TypeError` when a tuple meets an
int). -/
def mmAddDims : List AxSpec → List Nat → Except PyErr (List Nat)
  | f :: fs, c :: cs => do
    let d ← pyAddChannels f c
    let ds ← mmAddDims fs cs
    .ok (d :: ds)
  | _, _ => .ok []

/-- The `input_dims` list computed by `MMPerceiver.__init__`. -/
def mmInputDims (cfg : MMConfig) : Except PyErr (List Nat) :=
  mmAddDims (mmFourierChannels cfg) cfg.input_channels

/-- The model state left behind by a successful `MMPerceiver.__init__`. -/
structure MMModel where
  input_axes : List AxSpec
  input_channels : List Nat
  max_freq : ℚ
  num_freq_bands : Nat
  modalities : Nat
  fourier_encode_data : Bool
  layers : List PyModule
  num_latents : Nat
  latent_dim : Nat
  num_classes : Nat
  final_classifier_head : Bool

/-- `MMPerceiver.__init__` (source lines 308-375): the two length asserts,
the `input_dims` computation, and the layer construction. -/
def mmInit (cfg : MMConfig) : Except PyErr MMModel := do
  if cfg.input_channels.length = cfg.input_axes.length then
    if cfg.input_axes.length = cfg.modalities then do
      let dims ← mmInputDims cfg
      let (layers, _) ← mmBuildLayers cfg.latent_dim dims cfg.modalities
        cfg.self_per_cross_attn cfg.weight_tie_layers cfg.depth 0
        ⟨List.replicate cfg.modalities [], [], [], []⟩
      .ok { input_axes := cfg.input_axes
            input_channels := cfg.input_channels
            max_freq := cfg.max_freq
            num_freq_bands := cfg.num_freq_bands
            modalities := cfg.modalities
            fourier_encode_data := cfg.fourier_encode_data
            layers := layers
            num_latents := cfg.num_latents
            latent_dim := cfg.latent_dim
            num_classes := cfg.num_classes
            final_classifier_head := cfg.final_classifier_head }
    else .error (.assertionError mmLenMsg2)
  else .error (.assertionError mmLenMsg1)

/-!
## `MMPerceiver.forward` (source lines 378-421)

The preprocessing loop is modelled at value level on `PyTensor`s (it is what
claims about the `tensors` list need); from the latent broadcast on, only
shapes matter (latent values are learned parameters), so the layer loop and
classification head are tracked at shape level.
-/

/-- Message of the assert at source lines 388-389 (two concatenated f-string
parts; only the first carries the modality index). -/
def mmAxisMsg (i : Nat) : String :=
  "input data for modality " ++ toString (i + 1) ++
  " must hav the same number of axis as the input axis parameter"

/-- The per-modality preprocessing body (source lines 385-401) applied to
`tensors[i]`: unpack `b, *axis, _` from the shape (rank at least 2, else
`ValueError`), assert the spatial axis count against
`len(self.input_axes[i])`, optionally Fourier-encode positions over the
first spatial axis and concatenate, then flatten the middle axes. -/
def mmStepTensor (sin cos : ℚ → ℚ) (piQ : ℚ) (m : MMModel) (i : Nat)
    (t : PyTensor) : Except PyErr PyTensor := do
  if t.shape.length < 2 then .error .valueError
  else
    let b := t.shape.headD 0
    let axis := (t.shape.drop 1).dropLast
    let expected ←
      match m.input_axes.get? i with
      | none => .error .indexError
      | some a => pyLenAx a
    if axis.length = expected then
      let data ←
        if m.fourier_encode_data then do
          match axis.get? 0 with
          | none => .error .indexError
          | some n =>
            let pos := torchLinspace 0 1 n
            let encRows := pos.map (fun p => fourier_encode sin cos piQ p m.max_freq m.num_freq_bands)
            let encT : PyTensor :=
              { shape := [b, n, 2 * m.num_freq_bands + 1],
                data := List.flatten (List.replicate b (List.flatten encRows)) }
            catLastDim t encT
        else .ok t
      .ok (flattenMiddle data)
    else .error (.assertionError (mmAxisMsg i))

/-- The preprocessing loop `for i in range(self.modalities)` (source lines
384-401), processing iterations `i, i+1, ...` with `fuel` iterations left.
It returns the loop variable `b` (rebound at every unpack, so the value
left behind is the last modality's batch size, `none` if the loop never
ran) together with the mutated `tensors` list, which keeps its partial
updates even when an iteration raises. -/
def mmPreLoop (sin cos : ℚ → ℚ) (piQ : ℚ) (m : MMModel) :
    Nat → Nat → List PyTensor → Option Nat →
    Except PyErr (Option Nat) × List PyTensor
  | 0, _, ts, b => (.ok b, ts)
  | fuel + 1, i, ts, _ =>
    match ts.get? i with
    | none => (.error .indexError, ts)
    | some t =>
      if t.shape.length < 2 then (.error .valueError, ts)
      else
        match mmStepTensor sin cos piQ m i t with
        | .error e => (.error e, ts)
        | .ok u => mmPreLoop sin cos piQ m fuel (i + 1) (ts.set i u) (some (t.shape.headD 0))

/-- Calling a module on an input of shape `x` with an optional context of
shape `ctx` (shape-level semantics of `PreNorm`, `Attention`,
`FeedForward`).  `ctx = some _` marks a call that passes the
`context=`/`mask=` keyword arguments (source line 410); on an
`nn.ModuleList` such a call dies in argument binding with `TypeError`,
because the inherited placeholder is `forward(self, *input)` — positional
varargs only — while a bare positional call reaches the placeholder body
and raises `NotImplementedError`. -/
def callPyModule (mod : PyModule) (x : List Nat) (ctx : Option (List Nat)) :
    Except PyErr (List Nat) :=
  match mod with
  | .mlist _ =>
    match ctx with
    | some _ => .error .typeError
    | none => .error .notImplementedError
  | .preNormAttn qd cd =>
    match ctx with
    | none =>
      if x.getLast? = some qd ∧ x.length = 3 then .ok x else .error .runtimeError
    | some c =>
      if x.getLast? = some qd ∧ c.getLast? = some cd ∧ x.length = 3 ∧
          c.length = 3 ∧ x.headD 0 = c.headD 0 then .ok x
      else .error .runtimeError
  | .preNormSelfAttn d =>
    if x.getLast? = some d then .ok x else .error .runtimeError
  | .preNormFF d =>
    if x.getLast? = some d then .ok x else .error .runtimeError

/-- Residual addition `y + x` at shape level: shapes must agree. -/
def addResidual (y x : List Nat) : Except PyErr (List Nat) :=
  if y = x then .ok y else .error .runtimeError

/-- Inner modality loop of the layer loop (source lines 407-411):
`cross_attn = self.layers[i*2]` and `cross_ff = self.layers[(i*2)+1]` index
into the *outer* `self.layers` list (not into the current layer), then the
blocks are called with `context = tensors[i]`.  Python evaluation order:
the two indexings, then the call argument `tensors[i]`, then the calls. -/
def mmInner (layers : List PyModule) (ts : List PyTensor) :
    Nat → Nat → List Nat → Except PyErr (List Nat)
  | 0, _, x => .ok x
  | r + 1, i, x => do
    let ca ←
      match layers.get? (2 * i) with
      | some mo => .ok mo
      | none => .error .indexError
    let cf ←
      match layers.get? (2 * i + 1) with
      | some mo => .ok mo
      | none => .error .indexError
    let ctx ←
      match ts.get? i with
      | some c => .ok c.shape
      | none => .error .indexError
    let y ← callPyModule ca x (some ctx)
    let x1 ← addResidual y x
    let y2 ← callPyModule cf x1 none
    let x2 ← addResidual y2 x1
    mmInner layers ts r (i + 1) x2

/-- Body of `for layer in self.layers` (source lines 406-416): the inner
modality loop, then `self_attn, self_ff = self.layers[-1]` (unpacking the
last *layer*, an `nn.ModuleList` — a `ValueError` unless it has exactly two
elements) and the two shared latent calls. -/
def mmLayerBody (m : MMModel) (ts : List PyTensor) (x : List Nat) :
    Except PyErr (List Nat) := do
  let x1 ← mmInner m.layers ts m.modalities 0 x
  match m.layers.getLast? with
  | none => .error .indexError
  | some lastLayer =>
    match lastLayer with
    | .mlist [sa, sf] => do
      let y ← callPyModule sa x1 none
      let x2 ← addResidual y x1
      let y2 ← callPyModule sf x2 none
      addResidual y2 x2
    | .mlist _ => .error .valueError
    | _ => .error .typeError

/-- The layer loop, executed once per element of `self.layers` (the loop
variable `layer` is never used by the body). -/
def mmLayerLoop (m : MMModel) (ts : List PyTensor) :
    Nat → List Nat → Except PyErr (List Nat)
  | 0, x => .ok x
  | r + 1, x => do
    let x' ← mmLayerBody m ts x
    mmLayerLoop m ts r x'

/-- `self.to_logits` (source lines 371-375) at shape level: mean-pool the
sequence axis, layer-norm, project to `num_classes` — or the identity when
no classification head is attached. -/
def mmToLogits (m : MMModel) (x : List Nat) : List Nat :=
  if m.final_classifier_head then [x.headD 0, m.num_classes] else x

/-- `MMPerceiver.forward` (source lines 378-421).  Returns the result
(or the raised error) together with the final state of the caller's
`tensors` list, which the preprocessing loop mutates in place. -/
def mmForward (sin cos : ℚ → ℚ) (piQ : ℚ) (m : MMModel) (tensors : List PyTensor)
    (return_embeddings : Bool) : Except PyErr (List Nat) × List PyTensor :=
  match mmPreLoop sin cos piQ m m.modalities 0 tensors none with
  | (.error e, ts') => (.error e, ts')
  | (.ok b?, ts') =>
    match b? with
    | none => (.error .nameError, ts')
    | some b =>
      let x : List Nat := [b, m.num_latents, m.latent_dim]
      match mmLayerLoop m ts' m.layers.length x with
      | .error e => (.error e, ts')
      | .ok xfinal =>
        if return_embeddings then (.ok xfinal, ts')
        else (.ok (mmToLogits m xfinal), ts')

/-!
## `Perceiver.forward` (source lines 236-280), shape level
-/

/-- The constructor state of `Perceiver` that its forward pass reads. -/
structure PerceiverModel where
  input_axis : Nat
  max_freq : ℚ
  num_freq_bands : Nat
  fourier_encode_data : Bool
  input_dim : Nat
  num_latents : Nat
  latent_dim : Nat
  depth : Nat
  self_per_cross_attn : Nat
  num_classes : Nat
  final_classifier_head : Bool

/-- Message of the assert at source lines 243-244 (two concatenated
f-string parts, no space between them). -/
def perceiverAxisMsg (lenAxis inputAxis : Nat) : String :=
  "input data must have the right number of axis" ++
  "len(axis): " ++ toString lenAxis ++ ", input_axis: " ++ toString inputAxis

/-- The `self_attns` sub-loop of a `Perceiver` layer (source lines
269-271). -/
def perceiverSelfBlocks (m : PerceiverModel) (x : List Nat) :
    Nat → Except PyErr (List Nat)
  | 0 => .ok x
  | r + 1 => do
    let y ← callPyModule (.preNormSelfAttn m.latent_dim) x none
    let x1 ← addResidual y x
    let y2 ← callPyModule (.preNormFF m.latent_dim) x1 none
    let x2 ← addResidual y2 x1
    perceiverSelfBlocks m x2 r

/-- The per-layer block applications of `Perceiver.forward` (source lines
265-271) at shape level: the cross-attention context must carry
`input_dim` channels (the `to_kv` projection's input width); every block
maps the latent shape to itself. -/
def perceiverLayers (m : PerceiverModel) (dataSh x : List Nat) :
    Nat → Except PyErr (List Nat)
  | 0 => .ok x
  | r + 1 => do
    let y ← callPyModule (.preNormAttn m.latent_dim m.input_dim) x (some dataSh)
    let x1 ← addResidual y x
    let y2 ← callPyModule (.preNormFF m.latent_dim) x1 none
    let x2 ← addResidual y2 x1
    let x3 ← perceiverSelfBlocks m x2 m.self_per_cross_attn
    perceiverLayers m dataSh x3 r

/-- `Perceiver.forward` (source lines 236-280) at shape level: unpack
`b, *axis, _` (rank at least 2), assert `len(axis) == self.input_axis`,
optionally build and concatenate the Fourier position grid (its channel
count is `input_axis * (2 * num_freq_bands + 1)`; `torch.stack` on an
empty meshgrid raises `RuntimeError`), flatten, run the layers, and pool
or return embeddings. -/
def perceiverForward (m : PerceiverModel) (dataShape : List Nat)
    (return_embeddings : Bool) : Except PyErr (List Nat) := do
  if dataShape.length < 2 then .error .valueError
  else
    let b := dataShape.headD 0
    let axis := (dataShape.drop 1).dropLast
    let c := dataShape.getLast!
    if axis.length = m.input_axis then do
      let c' ←
        if m.fourier_encode_data then
          if axis.length = 0 then .error .runtimeError
          else .ok (c + axis.length * (2 * m.num_freq_bands + 1))
        else .ok c
      let dataSh := [b, axis.prod, c']
      let x : List Nat := [b, m.num_latents, m.latent_dim]
      let xfinal ← perceiverLayers m dataSh x m.depth
      if return_embeddings then .ok xfinal
      else if m.final_classifier_head then .ok [b, m.num_classes]
      else .ok xfinal
    else .error (.assertionError (perceiverAxisMsg axis.length m.input_axis))

/-!
## `Perceiver.__init__` layer construction (source lines 209-228), with
object identity

Python object identity matters for the weight-tying claim, so here each
constructed block gets a fresh numeric id from a counter; `cache_fn`
caches map a `key` to a previously created id.  Creation order inside one
layer follows the source: the `self_per_cross_attn` latent pairs first,
then the cross-attention and the cross feed-forward.
-/

/-- An id-valued `cache_fn` cache. -/
abbrev ICache := List (Option Nat × Nat)

/-- Lookup in an id cache. -/
def icLookup (k : Option Nat) : ICache → Option Nat
  | [] => none
  | (k', v) :: rest => if k = k' then some v else icLookup k rest

/-- One `cache_fn` call returning a block id: `uc` is the `_cache`
argument; a fresh block consumes the counter `n`. -/
def idCall (uc : Bool) (key : Option Nat) (cache : ICache) (n : Nat) :
    Nat × ICache × Nat :=
  if uc then
    match icLookup key cache with
    | some v => (v, cache, n)
    | none => (n, (key, n) :: cache, n + 1)
  else (n, cache, n + 1)

/-- Construction state: the id counter and the caches of the four factories
`get_latent_attn`, `get_latent_ff`, `get_cross_attn`, `get_cross_ff`. -/
structure PSt where
  nextId : Nat
  la : ICache
  lf : ICache
  ca : ICache
  cf : ICache
  deriving DecidableEq, Repr

/-- The block ids of one `Perceiver` layer. -/
structure PLayer where
  selfBlocks : List (Nat × Nat)
  crossAttn : Nat
  crossFf : Nat
  deriving DecidableEq, Repr

/-- The `self_attns` loop (source lines 218-222): for each
`block_ind`, `get_latent_attn(**cache_args, key = block_ind)` then
`get_latent_ff(**cache_args, key = block_ind)`. -/
def pBuildSelf (uc : Bool) : Nat → Nat → PSt → (List (Nat × Nat) × PSt)
  | 0, _, st => ([], st)
  | r + 1, bi, st =>
    let (a, la', n1) := idCall uc (some bi) st.la st.nextId
    let (f, lf', n2) := idCall uc (some bi) st.lf n1
    let (rest, st') := pBuildSelf uc r (bi + 1) { st with nextId := n2, la := la', lf := lf' }
    ((a, f) :: rest, st')

/-- One iteration of the layers loop (source lines 212-228):
`should_cache = i > 0 and weight_tie_layers`, the latent pairs, then
`get_cross_attn(**cache_args)` and `get_cross_ff(**cache_args)` (both with
the default `key = None`). -/
def pBuildLayer (S : Nat) (tie : Bool) (i : Nat) (st : PSt) : PLayer × PSt :=
  let uc := decide (0 < i) && tie
  let (selfs, st1) := pBuildSelf uc S 0 st
  let (cA, ca', n1) := idCall uc none st1.ca st1.nextId
  let (cF, cf', n2) := idCall uc none st1.cf n1
  (⟨selfs, cA, cF⟩, { st1 with nextId := n2, ca := ca', cf := cf' })

/-- The layers loop from depth index `i` with `r` iterations left. -/
def pBuildLayers (S : Nat) (tie : Bool) : Nat → Nat → PSt → List PLayer
  | 0, _, _ => []
  | r + 1, i, st =>
    let (l, st') := pBuildLayer S tie i st
    l :: pBuildLayers S tie r (i + 1) st'

/-- `Perceiver.__init__`'s `self.layers` for a given `depth`,
`self_per_cross_attn` count `S` and `weight_tie_layers` flag. -/
def pInitLayers (depth S : Nat) (tie : Bool) : List PLayer :=
  pBuildLayers S tie depth 0 ⟨0, [], [], [], []⟩

/-- All block ids of a layer. -/
def PLayer.ids (l : PLayer) : List Nat :=
  (l.selfBlocks.map (fun p => [p.1, p.2])).flatten ++ [l.crossAttn, l.crossFf]

/-- The ids stored at layer index `i` (empty when out of range). -/
def layerIdsAt (depth S : Nat) (tie : Bool) (i : Nat) : List Nat :=
  ((pInitLayers depth S tie).get? i).elim [] PLayer.ids

/-!
## Fourier position grid of `Perceiver.forward` (source lines 246-253)
-/

/-- Row-major cartesian product of per-axis coordinate lists (the
`torch.meshgrid(..., indexing = 'ij')` + `stack` view of the grid: one
coordinate vector per flattened spatial position). -/
def cartProd : List (List ℚ) → List (List ℚ)
  | [] => [[]]
  | l :: ls => (l.map (fun x => (cartProd ls).map (fun r => x :: r))).flatten

/-- The positional encoding computed by `Perceiver.forward` (source lines
246-253): per spatial position of the grid over `[-1, 1]`, the
concatenation over axes of the Fourier features of each coordinate, then a
broadcast over the batch.  It reads nothing from `data` but its shape. -/
def perceiverEncPos (sin cos : ℚ → ℚ) (piQ : ℚ) (max_freq : ℚ)
    (num_freq_bands : Nat) (data : PyTensor) : List (List (List ℚ)) :=
  let axis := (data.shape.drop 1).dropLast
  let rows := (cartProd (axis.map (fun n => torchLinspace (-1) 1 n))).map
    (fun coords => (coords.map (fun c => fourier_encode sin cos piQ c max_freq num_freq_bands)).flatten)
  List.replicate (data.shape.headD 0) rows

/-!
## `Attention.forward` similarity and masking (source lines 115-133)

After `rearrange(t, 'b n (h d) -> (b h) n d')`, tensors are indexed by a
merged batch-head index `bh`; entry `bh` of the merged tensor belongs to
original batch row `bh / heads`, which is how
`repeat(mask, 'b j -> (b h) () j')` broadcasts the mask. -/

/-- `sim = einsum('b i d, b j d -> b i j', q, k) * self.scale`
(source line 124). -/
def attnSim (scale : ℚ) (q k : Nat → Nat → Nat → ℚ) (d : Nat) :
    Nat → Nat → Nat → ℚ :=
  fun bh i j => (∑ t ∈ Finset.range d, q bh i t * k bh j t) * scale

/-- Source lines 126-130: `max_neg_value = -torch.finfo(sim.dtype).max`,
broadcast of the mask over heads, and
`sim.masked_fill_(~mask, max_neg_value)`.  `maxFinite` stands for
`torch.finfo(sim.dtype).max`, the largest finite value of the score dtype
(floats are modelled as rationals, which have no infinities; the fill value
is the *negated maximum finite* value, not an infinity). -/
def finfoMaskFill (heads : Nat) (mask : Nat → Nat → Bool) (maxFinite : ℚ)
    (sim : Nat → Nat → Nat → ℚ) : Nat → Nat → Nat → ℚ :=
  fun bh i j => if mask (bh / heads) j then sim bh i j else -maxFinite

/-- `attn = sim.softmax(dim = -1)` (source line 133) with the
exponential passed as a parameter: softmax over the context axis of
length `n`. -/
def attnSoftmax (exp : ℚ → ℚ) (n : Nat) (sim : Nat → Nat → Nat → ℚ) :
    Nat → Nat → Nat → ℚ :=
  fun bh i j => exp (sim bh i j) / ∑ t ∈ Finset.range n, exp (sim bh i t)

/-!
## Accessors and concrete instances used by the verification
-/

/-- True when an `Except` computation succeeded. -/
def exIsOk {α : Type} (e : Except PyErr α) : Bool :=
  match e with
  | .ok _ => true
  | .error _ => false

/-- The error raised by `MMPerceiver.__init__`, if any. -/
def mmInitErr (cfg : MMConfig) : Option PyErr :=
  match mmInit cfg with
  | .error e => some e
  | .ok _ => none

/-- Whether `MMPerceiver.__init__` succeeds. -/
def mmInitOk (cfg : MMConfig) : Bool :=
  match mmInit cfg with
  | .ok _ => true
  | .error _ => false

/-- Construct the model and run `forward` (`none` when construction
raises). -/
def mmRun (sin cos : ℚ → ℚ) (piQ : ℚ) (cfg : MMConfig) (ts : List PyTensor)
    (re : Bool) : Option (Except PyErr (List Nat) × List PyTensor) :=
  match mmInit cfg with
  | .error _ => none
  | .ok m => some (mmForward sin cos piQ m ts re)

/-- The result (or error) of a constructed-and-run `MMPerceiver`. -/
def mmRunRes (sin cos : ℚ → ℚ) (piQ : ℚ) (cfg : MMConfig) (ts : List PyTensor)
    (re : Bool) : Option (Except PyErr (List Nat)) :=
  (mmRun sin cos piQ cfg ts re).map Prod.fst

/-- The final state of the caller's `tensors` list after
construct-and-run. -/
def mmRunList (sin cos : ℚ → ℚ) (piQ : ℚ) (cfg : MMConfig) (ts : List PyTensor)
    (re : Bool) : Option (List PyTensor) :=
  (mmRun sin cos piQ cfg ts re).map Prod.snd

/-- The context dimension of the cross-attention block stored for modality
`mo` inside layer `j` (the element at index `2*mo` of the layer's module
list). -/
def layerCrossCtx (layers : List PyModule) (j mo : Nat) : Option Nat :=
  match layers.get? j with
  | some (.mlist ms) =>
    match ms.get? (2 * mo) with
    | some (.preNormAttn _ c) => some c
    | _ => none
  | _ => none

/-- The context dimension of the cross-attention block that
`MMPerceiver.__init__` stores for modality `mo` in layer `d`. -/
def mmCrossCtxDim (cfg : MMConfig) (d mo : Nat) : Option Nat :=
  match mmInit cfg with
  | .ok m => layerCrossCtx m.layers d mo
  | .error _ => none

/-- The last entry of the constructor's `input_dims`
(`input_dims[modalities - 1]`). -/
def mmLastInputDim (cfg : MMConfig) : Option Nat :=
  match mmInputDims cfg with
  | .ok l => l.getLast?
  | .error _ => none

/-- Whether modality `j`'s preprocessing step succeeds on the tensor the
loop will see at index `j` (earlier iterations only overwrite entries
before `j`, so this is the caller's original `tensors[j]`). -/
def mmStepOkAt (sin cos : ℚ → ℚ) (piQ : ℚ) (m : MMModel) (j : Nat)
    (ts : List PyTensor) : Bool :=
  match ts.get? j with
  | none => false
  | some t => exIsOk (mmStepTensor sin cos piQ m j t)

/-- Whether the whole preprocessing loop of `MMPerceiver.forward`
succeeds. -/
def mmPreOk (sin cos : ℚ → ℚ) (piQ : ℚ) (m : MMModel) (ts : List PyTensor) : Bool :=
  exIsOk (mmPreLoop sin cos piQ m m.modalities 0 ts none).1

/-- A placeholder transcendental function (the claims never depend on
concrete sine or cosine values). -/
def zf : ℚ → ℚ := fun _ => 0

/-- The spec's end-to-end scenario 2: two modalities, channels `[8, 16]`,
axes `[(10,), (5,)]`, `modalities = 2`, `depth = 1`, Fourier encoding left
at its default (enabled). -/
def cfgScenario2 : MMConfig :=
  { num_freq_bands := 6, depth := 1, modalities := 2, max_freq := 10
    input_channels := [8, 16], input_axes := [.tuple [10], .tuple [5]]
    num_latents := 32, latent_dim := 64, num_classes := 4
    weight_tie_layers := false, fourier_encode_data := true
    self_per_cross_attn := 1, final_classifier_head := true }

/-- Scenario 2 with Fourier encoding disabled (the only way its
construction can succeed). -/
def cfgScenario2NoF : MMConfig :=
  { cfgScenario2 with fourier_encode_data := false }

/-- Scenario-2 input tensors of shapes `(2, 10, 8)` and `(2, 5, 16)`. -/
def tScen0 : PyTensor := { shape := [2, 10, 8], data := List.replicate 160 0 }

/-- Second scenario-2 input tensor. -/
def tScen1 : PyTensor := { shape := [2, 5, 16], data := List.replicate 160 0 }

/-- A two-modality, `depth = 2` configuration (Fourier encoding off) whose
forward pass reaches the layer loop's module call. -/
def cfgDepth2 : MMConfig :=
  { num_freq_bands := 2, depth := 2, modalities := 2, max_freq := 10
    input_channels := [8, 16], input_axes := [.tuple [3], .tuple [4]]
    num_latents := 8, latent_dim := 16, num_classes := 4
    weight_tie_layers := false, fourier_encode_data := false
    self_per_cross_attn := 1, final_classifier_head := true }

/-- Inputs for `cfgDepth2`: shapes `(2, 3, 8)` and `(2, 4, 16)`. -/
def tD2a : PyTensor := { shape := [2, 3, 8], data := List.replicate 48 0 }

/-- Second input for `cfgDepth2`. -/
def tD2b : PyTensor := { shape := [2, 4, 16], data := List.replicate 128 0 }

/-- Single-modality configuration with Fourier encoding off (runnable
construction) used to observe the in-place update of `tensors`. -/
def cfgList : MMConfig :=
  { num_freq_bands := 4, depth := 1, modalities := 1, max_freq := 10
    input_channels := [8], input_axes := [.tuple [3]]
    num_latents := 8, latent_dim := 16, num_classes := 4
    weight_tie_layers := false, fourier_encode_data := true
    self_per_cross_attn := 1, final_classifier_head := true }

/-- `cfgList` with Fourier encoding disabled. -/
def cfgListNoF : MMConfig :=
  { cfgList with fourier_encode_data := false }

/-- Input for `cfgListNoF`: shape `(2, 3, 8)`. -/
def tList : PyTensor := { shape := [2, 3, 8], data := List.replicate 48 0 }

/-- A model state with Fourier encoding enabled and tuple axes — the state
`MMPerceiver.__init__` would need to produce for the positional-encoding
branch of `forward` to run (its construction in fact raises `TypeError`;
the record is written out directly to evaluate that branch). -/
def mFourierOn : MMModel :=
  { input_axes := [.tuple [3]], input_channels := [8], max_freq := 10
    num_freq_bands := 4, modalities := 1, fourier_encode_data := true
    layers := [], num_latents := 8, latent_dim := 16, num_classes := 4
    final_classifier_head := true }

/-- First data tensor of the determinism witness. -/
def wEncA : PyTensor := { shape := [2, 3, 4], data := [0, 5, 7] }

/-- Second data tensor of the determinism witness: same shape, different
contents. -/
def wEncB : PyTensor := { shape := [2, 3, 4], data := [1, 1, 1] }

/-- The spec's construction-error scenario: `modalities = 3` with
`input_channels` (and `input_axes`) of length 2. -/
def cfgBadLengths : MMConfig :=
  { cfgScenario2 with modalities := 3 }

/-- An explicit model state matching `mmInit cfgListNoF` for the mutation
witness. -/
def mNoF : MMModel :=
  { input_axes := [.tuple [3]], input_channels := [8], max_freq := 10
    num_freq_bands := 4, modalities := 1, fourier_encode_data := false
    layers := [.mlist [.preNormAttn 16 8, .preNormFF 16,
      .mlist [.mlist [.preNormSelfAttn 16, .preNormFF 16]]]]
    num_latents := 8, latent_dim := 16, num_classes := 4
    final_classifier_head := true }

/-- A `Perceiver` expecting three spatial axes. -/
def pmAxes3 : PerceiverModel :=
  { input_axis := 3, max_freq := 10, num_freq_bands := 2
    fourier_encode_data := true, input_dim := 13, num_latents := 4
    latent_dim := 8, depth := 1, self_per_cross_attn := 1, num_classes := 2
    final_classifier_head := true }

/-- A `Perceiver` expecting two spatial axes. -/
def pmAxes2 : PerceiverModel :=
  { pmAxes3 with input_axis := 2 }

/-- A two-modality model whose second modality expects two spatial axes. -/
def mMix : MMModel :=
  { input_axes := [.tuple [3], .tuple [4, 5]], input_channels := [8, 16]
    max_freq := 10, num_freq_bands := 2, modalities := 2
    fourier_encode_data := false, layers := [], num_latents := 4
    latent_dim := 8, num_classes := 2, final_classifier_head := true }

/-- A rank-3 tensor fed to the modality of `mMix` that expects rank 4. -/
def tMix : PyTensor := { shape := [2, 6, 16], data := List.replicate 192 0 }

/-- Consecutive id pairs handed out by a fresh (uncached or all-miss)
sequence of latent attention/feed-forward factory calls. -/
def pairsFrom (n r : Nat) : List (Nat × Nat) :=
  (List.range r).map (fun t => (n + 2 * t, n + 2 * t + 1))

/-!
## Theorems
-/

/-- `torch.linspace` produces exactly `steps` points. -/
theorem torchLinspace_length (a b : ℚ) (n : Nat) : (torchLinspace a b n).length = n := by
  simp [torchLinspace]

/-- C6: for every input scalar position, every `max_freq` and every
`num_bands`, `fourier_encode` produces a vector of length exactly
`2*num_bands + 1`: `num_bands` sine values followed by `num_bands` cosine
values, taken at the frequencies `torch.linspace 1 (max_freq/2) num_bands`
(one frequency per band, linearly spaced from `1` to `max_freq/2`), each
argument scaled by `pi`, with the original raw position value appended as
the last component. -/
theorem fourier_encode_structure (sin cos : ℚ → ℚ) (piQ x mf : ℚ) (nb : Nat) :
    (fourier_encode sin cos piQ x mf nb).length = 2 * nb + 1 ∧
    (fourier_encode sin cos piQ x mf nb).take nb =
      (torchLinspace 1 (mf / 2) nb).map (fun s => sin (x * s * piQ)) ∧
    ((fourier_encode sin cos piQ x mf nb).drop nb).take nb =
      (torchLinspace 1 (mf / 2) nb).map (fun s => cos (x * s * piQ)) ∧
    (fourier_encode sin cos piQ x mf nb).drop (2 * nb) = [x] ∧
    (torchLinspace 1 (mf / 2) nb).length = nb := by
  have hS : ((torchLinspace 1 (mf / 2) nb).map (fun s => sin (x * s * piQ))).length = nb := by
    simp [torchLinspace]
  have hC : ((torchLinspace 1 (mf / 2) nb).map (fun s => cos (x * s * piQ))).length = nb := by
    simp [torchLinspace]
  refine ⟨?_, ?_, ?_, ?_, torchLinspace_length 1 (mf / 2) nb⟩
  · simp only [fourier_encode]
    simp [torchLinspace]
    omega
  · simp only [fourier_encode]
    rw [List.append_assoc, List.take_left' hS]
  · simp only [fourier_encode]
    rw [List.append_assoc, List.drop_left' hS, List.take_left' hC]
  · simp only [fourier_encode]
    have h2 : (((torchLinspace 1 (mf / 2) nb).map (fun s => sin (x * s * piQ))) ++
        ((torchLinspace 1 (mf / 2) nb).map (fun s => cos (x * s * piQ)))).length = 2 * nb := by
      rw [List.length_append, hS, hC]; omega
    rw [List.drop_left' h2]

/-- C8: the Fourier positional encoding computed inside `Perceiver.forward`
is a deterministic function of the data tensor's shape (its spatial axis
sizes and batch size) and of the two hyperparameters alone: two data
tensors of identical shape receive identical encodings, whatever their
contents.  (`perceiverEncPos` is recomputed from scratch on every call —
it is a pure function with no cache.) -/
theorem enc_pos_shape_only (sin cos : ℚ → ℚ) (piQ mf : ℚ) (nb : Nat)
    (d1 d2 : PyTensor) (h : d1.shape = d2.shape) :
    perceiverEncPos sin cos piQ mf nb d1 = perceiverEncPos sin cos piQ mf nb d2 := by
  simp only [perceiverEncPos, h]

/-- Witness for C8 at concrete tensors of equal shape and different data. -/
theorem enc_pos_shape_only_witness :
    wEncA.data ≠ wEncB.data ∧
    perceiverEncPos zf zf 0 10 2 wEncA = perceiverEncPos zf zf 0 10 2 wEncB :=
  ⟨by decide, enc_pos_shape_only zf zf 0 10 2 wEncA wEncB rfl⟩

/-- C5: in `Attention.forward`, when a mask is supplied, every context
position `j` whose mask entry is `False` gets its pre-softmax similarity
score replaced by `-maxFinite` — the negation of the *largest finite*
value of the score dtype (`-torch.finfo(sim.dtype).max`), not an infinity
— for every merged batch-head row `bh` and every query position `i`,
before the softmax over the context axis. -/
theorem attention_masked_fill (heads : Nat) (mask : Nat → Nat → Bool)
    (maxFinite scale : ℚ) (q k : Nat → Nat → Nat → ℚ) (d bh i j : Nat)
    (h : mask (bh / heads) j = false) :
    finfoMaskFill heads mask maxFinite (attnSim scale q k d) bh i j = -maxFinite := by
  simp [finfoMaskFill, h]

/-- Witness for C5 at a concrete masked position. -/
theorem attention_masked_fill_witness :
    (fun _ _ => false : Nat → Nat → Bool) (3 / 2) 5 = false ∧
    finfoMaskFill 2 (fun _ _ => false) 3
      (attnSim 1 (fun _ _ _ => 1) (fun _ _ _ => 1) 4) 3 0 5 = -3 :=
  ⟨rfl, attention_masked_fill 2 (fun _ _ => false) 3 1 (fun _ _ _ => 1) (fun _ _ _ => 1) 4 3 0 5 rfl⟩

/-- C1 (code bug): the layer loop of `MMPerceiver.forward` looks its
cross-attention blocks up as `self.layers[i*2]` and `self.layers[(i*2)+1]`
— indices into the *outer* list of layers, not into the current layer —
so instead of modality `i`'s blocks it fetches whole layers
(`nn.ModuleList`s) and calls one with `context=`/`mask=` keyword
arguments, which the inherited placeholder `forward(self, *input)`
rejects with `TypeError` during argument binding: on a valid two-modality
`depth = 2` model the forward pass fails instead of performing the
claimed per-modality cross-attention updates (with `depth = 1` it is
`self.layers[1]` that raises `IndexError` first). -/
theorem mm_forward_calls_module_list :
    mmRunRes zf zf 0 cfgDepth2 [tD2a, tD2b] false =
      some (.error .typeError) := by
  rfl

/-- C2 (code bug): the spec's end-to-end scenario 2 (two modalities,
tensors `(2, 10, 8)` and `(2, 5, 16)`, axes `[(10,), (5,)]`, channels
`[8, 16]`, `modalities = 2`, `depth = 1`) does not return a `(2,
num_classes)` tensor: with the default `fourier_encode_data = True` the
construction itself raises `TypeError` (tuple `input_axes` entries flow
into `input_dims = fourier_channels + input_channels`), and with Fourier
encoding disabled the forward pass raises `IndexError` at the layer loop
(`self.layers[(0*2)+1]` on a one-layer list). -/
theorem scenario2_fails :
    mmInitErr cfgScenario2 = some PyErr.typeError ∧
    mmRunRes zf zf 0 cfgScenario2NoF [tScen0, tScen1] false =
      some (.error .indexError) :=
  ⟨rfl, rfl⟩

/-- C3 counterexample: in the (only constructible) two-modality
configuration with `input_dims = [8, 16]` and `depth = 1`, the
cross-attention block stored for modality `0` has context dimension `8` =
`input_dims[0]`, not `input_dims[modalities-1] = 16` as the claim states
(and the block is therefore *compatible* with modality 0's context, again
contradicting the claim). -/
theorem mm_cross_ctx_dim_counterexample :
    mmCrossCtxDim cfgScenario2NoF 0 0 = some 8 ∧
    mmLastInputDim cfgScenario2NoF = some 16 ∧
    mmCrossCtxDim cfgScenario2NoF 0 0 ≠ mmLastInputDim cfgScenario2NoF :=
  ⟨rfl, rfl, by decide⟩

/-- C10 counterexample: in the only kind of configuration whose forward
pass runs at all (`fourier_encode_data = False` — with it `True`,
construction raises `TypeError` on tuple axes), the entry left in the
caller's `tensors` list is the *flattened* original, not the
positionally-encoded-and-flattened tensor the claim describes (the
encoded tensor, computed by the same preprocessing step on a model state
with the flag set, differs from what the list holds). -/
theorem mm_forward_list_not_encoded :
    mmRunList zf zf 0 cfgListNoF [tList] false = some [flattenMiddle tList] ∧
    (mmStepTensor zf zf 0 mFourierOn 0 tList).toOption ≠ some (flattenMiddle tList) ∧
    mmInitErr cfgList = some PyErr.typeError :=
  ⟨rfl, by decide, rfl⟩

/-- An error escaping `cacheCallE` comes from the wrapped factory. -/
theorem cacheCallE_error (f : Unit → Except PyErr PyModule) (uc : Bool)
    (key : Option Nat) (c : MCache) (e : PyErr)
    (h : cacheCallE f uc key c = .error e) : f () = .error e := by
  unfold cacheCallE at h
  split at h
  · split at h
    · exact absurd h (by simp)
    · split at h
      · exact absurd h (by simp)
      · simp_all
  · split at h
    · exact absurd h (by simp)
    · simp_all

/-- `input_dims` computation can only raise `TypeError`. -/
theorem mmAddDims_error (fs : List AxSpec) :
    ∀ (cs : List Nat) (e : PyErr), mmAddDims fs cs = .error e → e = .typeError := by
  induction fs with
  | nil => intro cs e h; simp [mmAddDims] at h
  | cons f fs ih =>
    intro cs e h
    cases cs with
    | nil => simp [mmAddDims] at h
    | cons c cs =>
      simp only [mmAddDims, bind, Except.bind] at h
      cases hf : pyAddChannels f c with
      | error e' =>
        rw [hf] at h
        cases f with
        | int n => simp [pyAddChannels] at hf
        | tuple t =>
          simp [pyAddChannels] at hf
          simp at h
          rw [← h, ← hf]
      | ok d =>
        rw [hf] at h
        cases hd : mmAddDims fs cs with
        | error e'' => rw [hd] at h; simp at h; subst h; exact ih cs e'' hd
        | ok ds => rw [hd] at h; simp at h

/-- An error escaping the cross-list construction is an `IndexError`
(the late-bound `input_dims[i]` lookup). -/
theorem mmBuildCross_error (L : Nat) (dims : List Nat) (dc : Nat) (uc : Bool) :
    ∀ (r m : Nat) (ccs : List MCache) (ffc : MCache) (e : PyErr),
    mmBuildCross L dims dc uc r m ccs ffc = .error e → e = .indexError := by
  intro r
  induction r with
  | zero => intro m ccs ffc e h; simp [mmBuildCross] at h
  | succ r ih =>
    intro m ccs ffc e h
    simp only [mmBuildCross, bind, Except.bind] at h
    cases hca : cacheCallE (fun _ => mkCrossAttn L dims dc) uc none ((ccs.get? m).getD []) with
    | error e' =>
      rw [hca] at h
      simp at h
      have hf := cacheCallE_error _ _ _ _ _ hca
      unfold mkCrossAttn at hf
      cases hd : dims.get? dc with
      | some d => rw [hd] at hf; simp at hf
      | none => rw [hd] at hf; simp at hf; rw [← h, ← hf]
    | ok p =>
      rw [hca] at h
      dsimp only at h
      cases hff : cacheCallE (fun _ => .ok (.preNormFF L)) uc none ffc with
      | error e' =>
        rw [hff] at h
        have hf := cacheCallE_error _ _ _ _ _ hff
        simp at hf
      | ok p2 =>
        rw [hff] at h
        dsimp only at h
        cases hrest : mmBuildCross L dims dc uc r (m + 1) (ccs.set m p.2) p2.2 with
        | error e'' => rw [hrest] at h; simp at h; subst h; exact ih _ _ _ _ hrest
        | ok rest => rw [hrest] at h; simp at h

/-- An error escaping one layer's construction is an `IndexError`. -/
theorem mmBuildLayer_error (L : Nat) (dims : List Nat) (mods S : Nat) (tie : Bool)
    (d : Nat) (st : MMSt) (e : PyErr)
    (h : mmBuildLayer L dims mods S tie d st = .error e) : e = .indexError := by
  simp only [mmBuildLayer, bind, Except.bind] at h
  rcases hs : mmBuildSelf L (decide (0 < d) && tie) S 0 st.latAttn st.latFf with ⟨selfs, la, lf⟩
  rw [hs] at h
  dsimp only at h
  cases hc : mmBuildCross L dims d (decide (0 < d) && tie) mods 0 st.cross st.crossFf with
  | error e' =>
    rw [hc] at h
    simp at h
    subst h
    exact mmBuildCross_error _ _ _ _ _ _ _ _ _ hc
  | ok p =>
    rw [hc] at h
    dsimp only at h
    simp at h

/-- An error escaping the whole layers loop is an `IndexError`. -/
theorem mmBuildLayers_error (L : Nat) (dims : List Nat) (mods S : Nat) (tie : Bool) :
    ∀ (r d : Nat) (st : MMSt) (e : PyErr),
    mmBuildLayers L dims mods S tie r d st = .error e → e = .indexError := by
  intro r
  induction r with
  | zero => intro d st e h; simp [mmBuildLayers] at h
  | succ r ih =>
    intro d st e h
    simp only [mmBuildLayers, bind, Except.bind] at h
    cases hl : mmBuildLayer L dims mods S tie d st with
    | error e' =>
      rw [hl] at h
      simp at h
      subst h
      exact mmBuildLayer_error _ _ _ _ _ _ _ _ hl
    | ok p =>
      rw [hl] at h
      dsimp only at h
      cases hr : mmBuildLayers L dims mods S tie r (d + 1) p.2 with
      | error e'' =>
        rw [hr] at h
        simp at h
        subst h
        exact ih _ _ _ hr
      | ok q =>
        rw [hr] at h
        simp at h

/-- C4: constructing `MMPerceiver` with disagreeing list lengths fails at
once, inside `__init__` (before any forward call): if
`len(input_channels) != len(input_axes)` the first assert raises; if the
lengths agree but `len(input_axes) != modalities` the second assert
raises.  When both lengths agree these checks pass, and no
`AssertionError` can escape the rest of the constructor. -/
theorem mm_init_length_asserts (cfg : MMConfig) :
    (cfg.input_channels.length ≠ cfg.input_axes.length →
      mmInit cfg = .error (.assertionError mmLenMsg1)) ∧
    (cfg.input_channels.length = cfg.input_axes.length →
      cfg.input_axes.length ≠ cfg.modalities →
      mmInit cfg = .error (.assertionError mmLenMsg2)) ∧
    (cfg.input_channels.length = cfg.input_axes.length →
      cfg.input_axes.length = cfg.modalities →
      ∀ s, mmInit cfg ≠ .error (.assertionError s)) := by
  refine ⟨?_, ?_, ?_⟩
  · intro h
    simp only [mmInit]
    rw [if_neg h]
  · intro h1 h2
    simp only [mmInit]
    rw [if_pos h1, if_neg h2]
  · intro h1 h2 s
    simp only [mmInit, bind, Except.bind]
    rw [if_pos h1, if_pos h2]
    cases hd : mmInputDims cfg with
    | error e =>
      have := mmAddDims_error _ _ _ hd
      subst this
      intro hcontra
      simp at hcontra
    | ok dims =>
      dsimp only
      cases hb : mmBuildLayers cfg.latent_dim dims cfg.modalities cfg.self_per_cross_attn
          cfg.weight_tie_layers cfg.depth 0
          ⟨List.replicate cfg.modalities [], [], [], []⟩ with
      | error e =>
        have := mmBuildLayers_error _ _ _ _ _ _ _ _ _ hb
        subst this
        intro hcontra
        simp at hcontra
      | ok p =>
        dsimp only
        intro hcontra
        simp at hcontra

/-- Witness for C4: the scenario configuration trips the second assert
during construction. -/
theorem mm_init_length_asserts_witness :
    mmInit cfgBadLengths = .error (.assertionError mmLenMsg2) :=
  (mm_init_length_asserts cfgBadLengths).2.1 (by decide) (by decide)

/-- `cacheCallE` with `_cache = False` just runs the factory. -/
theorem cacheCallE_nocache (f : Unit → Except PyErr PyModule) (key : Option Nat)
    (c : MCache) :
    cacheCallE f false key c =
      match f () with
      | .ok m => .ok (m, c)
      | .error e => .error e := by
  simp [cacheCallE]

/-- Without caching, the self-attention list of a layer is
`self_per_cross_attn` copies of a fresh latent pair, and the caches are
untouched. -/
theorem mmBuildSelf_nocache (L : Nat) (S : Nat) :
    ∀ (bi : Nat) (la lf : MCache),
    mmBuildSelf L false S bi la lf =
      (List.replicate S (.mlist [.preNormSelfAttn L, .preNormFF L]), la, lf) := by
  induction S with
  | zero => intro bi la lf; simp [mmBuildSelf]
  | succ S ih =>
    intro bi la lf
    simp [mmBuildSelf, cacheCallE_nocache, ih, List.replicate_succ]

/-- Without caching, a successful cross-list build has `2 * modalities`
entries, and the entry at every even index `2*j` is the cross-attention
block with context dimension `input_dims[dc]` — `dc` being the depth index
current when the factories run. -/
theorem mmBuildCross_ok_get (L : Nat) (dims : List Nat) (dc : Nat) :
    ∀ (r m : Nat) (ccs : List MCache) (ffc : MCache) (cross : List PyModule)
      (st2 : List MCache × MCache),
    mmBuildCross L dims dc false r m ccs ffc = .ok (cross, st2) →
    cross.length = 2 * r ∧
    ∀ j, j < r → cross.get? (2 * j) =
      (dims.get? dc).map (fun dd => PyModule.preNormAttn L dd) := by
  intro r
  induction r with
  | zero =>
    intro m ccs ffc cross st2 h
    simp [mmBuildCross] at h
    refine ⟨by simp [← h.1], ?_⟩
    intro j hj
    omega
  | succ r ih =>
    intro m ccs ffc cross st2 h
    simp only [mmBuildCross, bind, Except.bind] at h
    rw [cacheCallE_nocache] at h
    cases hm : mkCrossAttn L dims dc with
    | error e => rw [hm] at h; simp at h
    | ok a =>
      rw [hm] at h
      dsimp only at h
      rw [cacheCallE_nocache] at h
      dsimp only at h
      cases hrest : mmBuildCross L dims dc false r (m + 1) (ccs.set m ((ccs.get? m).getD [])) ffc with
      | error e => rw [hrest] at h; simp at h
      | ok p =>
        rw [hrest] at h
        dsimp only at h
        simp at h
        obtain ⟨hcross, hst⟩ := h
        obtain ⟨hlen, hget⟩ := ih (m + 1) (ccs.set m ((ccs.get? m).getD [])) ffc p.1 p.2
          (by rw [hrest])
        unfold mkCrossAttn at hm
        cases hdd : dims.get? dc with
        | none => rw [hdd] at hm; simp at hm
        | some dd =>
          rw [hdd] at hm
          simp at hm
          subst hm
          subst hcross
          constructor
          · simp [hlen]; omega
          · intro j hj
            cases j with
            | zero => simp [hdd]
            | succ j =>
              have h2 : 2 * (j + 1) = 2 * j + 1 + 1 := by ring
              rw [h2]
              simp only [List.get?_cons_succ]
              rw [hdd] at hget
              exact hget j (by omega)

/-- Without weight tying, the cross-attention block stored for *every*
modality `mo` of layer `j` has context dimension `input_dims[d0 + j]`:
the index the late-bound lambda reads is the depth-loop variable, the same
for all modalities of the layer. -/
theorem mmBuildLayers_crossCtx (L : Nat) (dims : List Nat) (mods S : Nat) :
    ∀ (r d0 : Nat) (st : MMSt) (layers : List PyModule) (st'' : MMSt),
    mmBuildLayers L dims mods S false r d0 st = .ok (layers, st'') →
    ∀ j, j < r → ∀ mo, mo < mods →
      layerCrossCtx layers j mo = dims.get? (d0 + j) := by
  intro r
  induction r with
  | zero => intro d0 st layers st'' h j hj; omega
  | succ r ih =>
    intro d0 st layers st'' h j hj mo hmo
    simp only [mmBuildLayers, bind, Except.bind] at h
    cases hl : mmBuildLayer L dims mods S false d0 st with
    | error e => rw [hl] at h; simp at h
    | ok p =>
      rw [hl] at h
      dsimp only at h
      cases hr : mmBuildLayers L dims mods S false r (d0 + 1) p.2 with
      | error e => rw [hr] at h; simp at h
      | ok q =>
        rw [hr] at h
        dsimp only at h
        simp at h
        obtain ⟨hlay, hst⟩ := h
        cases j with
        | zero =>
          simp only [mmBuildLayer, Bool.and_false, bind, Except.bind] at hl
          rw [mmBuildSelf_nocache] at hl
          dsimp only at hl
          cases hc : mmBuildCross L dims d0 false mods 0 st.cross st.crossFf with
          | error e => rw [hc] at hl; simp at hl
          | ok pc =>
            rw [hc] at hl
            dsimp only at hl
            simp at hl
            obtain ⟨hclen, hcget⟩ :=
              mmBuildCross_ok_get L dims d0 mods 0 st.cross st.crossFf pc.1 pc.2
                (by rw [hc])
            subst hlay
            simp only [layerCrossCtx, List.get?_cons_zero]
            rw [← hl]
            dsimp only
            have hlt : 2 * mo < pc.1.length := by omega
            rw [List.get?_eq_getElem?, List.getElem?_append_left hlt,
              ← List.get?_eq_getElem?, hcget mo hmo, Nat.add_zero]
            cases hdd : dims.get? d0 with
            | none => simp
            | some dd => simp
        | succ j =>
          subst hlay
          have hstep := ih (d0 + 1) p.2 q.1 q.2 (by rw [hr]) j (by omega) mo hmo
          simp only [layerCrossCtx, List.get?_cons_succ] at hstep ⊢
          rw [hstep]
          congr 1
          omega

/-- C3 (amended): without weight tying, for every layer `d` and every
modality `mo`, the cross-attention block `MMPerceiver.__init__` stores has
context dimension `input_dims[d]` — the late-bound `i` read by the factory
lambda is the depth-loop index at construction time, not the claimed
`modalities - 1` (and not the modality's own index). -/
theorem mm_cross_ctx_dim_late_bound (cfg : MMConfig) (d mo : Nat)
    (htie : cfg.weight_tie_layers = false) (hok : mmInitOk cfg = true)
    (hd : d < cfg.depth) (hmo : mo < cfg.modalities) :
    mmCrossCtxDim cfg d mo = (mmInputDims cfg).toOption.bind (fun l => l.get? d) := by
  unfold mmInitOk at hok
  cases hinit : mmInit cfg with
  | error e => rw [hinit] at hok; simp at hok
  | ok m =>
    unfold mmCrossCtxDim
    rw [hinit]
    simp only [mmInit, bind, Except.bind] at hinit
    by_cases h1 : cfg.input_channels.length = cfg.input_axes.length
    · rw [if_pos h1] at hinit
      by_cases h2 : cfg.input_axes.length = cfg.modalities
      · rw [if_pos h2] at hinit
        cases hdims : mmInputDims cfg with
        | error e => rw [hdims] at hinit; simp at hinit
        | ok dims =>
          rw [hdims] at hinit
          dsimp only at hinit
          rw [htie] at hinit
          cases hb : mmBuildLayers cfg.latent_dim dims cfg.modalities
              cfg.self_per_cross_attn false cfg.depth 0
              ⟨List.replicate cfg.modalities [], [], [], []⟩ with
          | error e => rw [hb] at hinit; simp at hinit
          | ok p =>
            rw [hb] at hinit
            dsimp only at hinit
            simp only [Except.ok.injEq] at hinit
            subst hinit
            have hext := mmBuildLayers_crossCtx cfg.latent_dim dims cfg.modalities
              cfg.self_per_cross_attn cfg.depth 0
              ⟨List.replicate cfg.modalities [], [], [], []⟩ p.1 p.2
              (by rw [hb]) d hd mo hmo
            simp only at hext ⊢
            rw [hext]
            simp [Except.toOption, hdims]
      · rw [if_neg h2] at hinit; simp at hinit
    · rw [if_neg h1] at hinit; simp at hinit

/-- Witness for the amended C3: in the scenario-2 (Fourier-off)
configuration, modality 1's layer-0 block gets context dimension
`input_dims[0]`. -/
theorem mm_cross_ctx_dim_late_bound_witness :
    mmCrossCtxDim cfgScenario2NoF 0 1 =
      (mmInputDims cfgScenario2NoF).toOption.bind (fun l => l.get? 0) :=
  mm_cross_ctx_dim_late_bound cfgScenario2NoF 0 1 (by decide) (by decide)
    (by decide) (by decide)

/-- A successful preprocessing loop run starting at modality `i`: entries
below `i` are untouched, and every processed entry `j` now holds the
output of the preprocessing step applied to the caller's `tensors[j]`. -/
theorem mmPreLoop_ok_entries (sin cos : ℚ → ℚ) (piQ : ℚ) (m : MMModel) :
    ∀ (fuel i : Nat) (ts : List PyTensor) (b0 b : Option Nat) (ts' : List PyTensor),
    mmPreLoop sin cos piQ m fuel i ts b0 = (.ok b, ts') →
    (∀ n, n < i → ts'.get? n = ts.get? n) ∧
    ∀ j, i ≤ j → j < i + fuel → ∃ t u, ts.get? j = some t ∧
      mmStepTensor sin cos piQ m j t = .ok u ∧ ts'.get? j = some u := by
  intro fuel
  induction fuel with
  | zero =>
    intro i ts b0 b ts' h
    simp only [mmPreLoop] at h
    have h2 : ts' = ts := (congrArg Prod.snd h).symm
    exact ⟨fun n _ => by rw [h2], fun j hj1 hj2 => by omega⟩
  | succ fuel ih =>
    intro i ts b0 b ts' h
    simp only [mmPreLoop] at h
    cases hget : ts.get? i with
    | none => rw [hget] at h; simp at h
    | some t =>
      rw [hget] at h
      dsimp only at h
      by_cases hrank : t.shape.length < 2
      · rw [if_pos hrank] at h; simp at h
      · rw [if_neg hrank] at h
        cases hstep : mmStepTensor sin cos piQ m i t with
        | error e => rw [hstep] at h; simp at h
        | ok u =>
          rw [hstep] at h
          have hlen : i < ts.length := by
            obtain ⟨h1, _⟩ := List.get?_eq_some.mp hget
            exact h1
          obtain ⟨ihbelow, ihrange⟩ := ih (i + 1) (ts.set i u) (some (t.shape.headD 0)) b ts' h
          constructor
          · intro n hn
            rw [ihbelow n (by omega), List.get?_eq_getElem?, List.get?_eq_getElem?,
              List.getElem?_set_ne (by omega : i ≠ n)]
          · intro j hj1 hj2
            rcases Nat.eq_or_lt_of_le hj1 with hji | hji
            · subst hji
              refine ⟨t, u, hget, hstep, ?_⟩
              rw [ihbelow i (by omega), List.get?_eq_getElem?, List.getElem?_set_self']
              simp [List.getElem?_eq_getElem hlen]
            · obtain ⟨t', u', hg', hs', hr'⟩ := ihrange j hji (by omega)
              refine ⟨t', u', ?_, hs', hr'⟩
              rw [← hg', List.get?_eq_getElem?, List.get?_eq_getElem?,
                List.getElem?_set_ne (by omega : i ≠ j)]

/-- With Fourier encoding off, a successful preprocessing step is exactly
the middle-axes flattening. -/
theorem mmStepTensor_noFourier (sin cos : ℚ → ℚ) (piQ : ℚ) (m : MMModel) (i : Nat)
    (t u : PyTensor) (hf : m.fourier_encode_data = false)
    (h : mmStepTensor sin cos piQ m i t = .ok u) : u = flattenMiddle t := by
  simp only [mmStepTensor, hf, bind, Except.bind] at h
  split at h
  · simp at h
  · cases hax : m.input_axes.get? i with
    | none => rw [hax] at h; simp at h
    | some a =>
      rw [hax] at h
      try dsimp only at h
      cases a with
      | int n => simp [pyLenAx] at h
      | tuple tup =>
        simp only [pyLenAx] at h
        try dsimp only at h
        split at h
        · simp at h
          exact h.symm
        · simp at h

/-- C10 (amended): `MMPerceiver.forward` mutates the caller's `tensors`
list in place: whatever happens afterwards (the layer loop raises whenever
`depth ≥ 1`), once the preprocessing loop has finished, the list the
caller passed holds the preprocessed tensors; with Fourier encoding off —
the only setting under which a constructible model gets this far — entry
`i` is the flattened (not positionally encoded) original `tensors[i]`. -/
theorem mm_forward_mutates_list (sin cos : ℚ → ℚ) (piQ : ℚ) (m : MMModel)
    (ts : List PyTensor) (re : Bool) (b : Option Nat) (ts' : List PyTensor)
    (h : mmPreLoop sin cos piQ m m.modalities 0 ts none = (.ok b, ts')) :
    (mmForward sin cos piQ m ts re).2 = ts' ∧
    (m.fourier_encode_data = false →
      ∀ i t, i < m.modalities → ts.get? i = some t →
        ts'.get? i = some (flattenMiddle t)) := by
  constructor
  · simp only [mmForward]
    rw [h]
    cases b with
    | none => rfl
    | some bb =>
      dsimp only
      cases hll : mmLayerLoop m ts' m.layers.length [bb, m.num_latents, m.latent_dim] with
      | error e => rfl
      | ok x => cases re <;> rfl
  · intro hf i t hi hget
    obtain ⟨_, hrange⟩ := mmPreLoop_ok_entries sin cos piQ m m.modalities 0 ts none b ts' h
    obtain ⟨t2, u, hg', hs', hr'⟩ := hrange i (by omega) (by omega)
    rw [hget] at hg'
    injection hg' with hteq
    subst hteq
    rw [hr', mmStepTensor_noFourier sin cos piQ m i t u hf hs']

/-- Witness for the amended C10 at a concrete model and tensor list. -/
theorem mm_forward_mutates_list_witness :
    (mmForward zf zf 0 mNoF [tList] false).2 = [flattenMiddle tList] ∧
    (mNoF.fourier_encode_data = false →
      ∀ i t, i < mNoF.modalities → [tList].get? i = some t →
        [flattenMiddle tList].get? i = some (flattenMiddle t)) :=
  mm_forward_mutates_list zf zf 0 mNoF [tList] false (some 2) [flattenMiddle tList]
    (by rfl)

/-- Calling a module never raises an `AssertionError`. -/
theorem callPyModule_no_assert (mod : PyModule) (x : List Nat)
    (ctx : Option (List Nat)) (e : PyErr)
    (h : callPyModule mod x ctx = .error e) : e.isAssert = false := by
  cases mod with
  | mlist ms =>
    simp only [callPyModule] at h
    cases ctx with
    | some c => simp at h; subst h; rfl
    | none => simp at h; subst h; rfl
  | preNormAttn qd cd =>
    simp only [callPyModule] at h
    split at h <;> split at h <;> (simp at h; try (subst h; rfl))
  | preNormSelfAttn d =>
    simp only [callPyModule] at h
    split at h <;> (simp at h; try (subst h; rfl))
  | preNormFF d =>
    simp only [callPyModule] at h
    split at h <;> (simp at h; try (subst h; rfl))

/-- Residual addition never raises an `AssertionError`. -/
theorem addResidual_no_assert (y x : List Nat) (e : PyErr)
    (h : addResidual y x = .error e) : e.isAssert = false := by
  simp only [addResidual] at h
  split at h
  · simp at h
  · simp at h; subst h; rfl

/-- The latent self-attention sub-loop never raises an `AssertionError`. -/
theorem perceiverSelfBlocks_no_assert (m : PerceiverModel) :
    ∀ (r : Nat) (x : List Nat) (e : PyErr),
    perceiverSelfBlocks m x r = .error e → e.isAssert = false := by
  intro r
  induction r with
  | zero => intro x e h; simp [perceiverSelfBlocks] at h
  | succ r ih =>
    intro x e h
    simp only [perceiverSelfBlocks, bind, Except.bind] at h
    cases h1 : callPyModule (.preNormSelfAttn m.latent_dim) x none with
    | error e1 => rw [h1] at h; simp at h; subst h; exact callPyModule_no_assert _ _ _ _ h1
    | ok y =>
      rw [h1] at h
      try dsimp only at h
      cases h2 : addResidual y x with
      | error e2 => rw [h2] at h; simp at h; subst h; exact addResidual_no_assert _ _ _ h2
      | ok x1 =>
        rw [h2] at h
        try dsimp only at h
        cases h3 : callPyModule (.preNormFF m.latent_dim) x1 none with
        | error e3 => rw [h3] at h; simp at h; subst h; exact callPyModule_no_assert _ _ _ _ h3
        | ok y2 =>
          rw [h3] at h
          try dsimp only at h
          cases h4 : addResidual y2 x1 with
          | error e4 => rw [h4] at h; simp at h; subst h; exact addResidual_no_assert _ _ _ h4
          | ok x2 =>
            rw [h4] at h
            try dsimp only at h
            exact ih x2 e h

/-- The `Perceiver` layer loop never raises an `AssertionError`. -/
theorem perceiverLayers_no_assert (m : PerceiverModel) (dataSh : List Nat) :
    ∀ (r : Nat) (x : List Nat) (e : PyErr),
    perceiverLayers m dataSh x r = .error e → e.isAssert = false := by
  intro r
  induction r with
  | zero => intro x e h; simp [perceiverLayers] at h
  | succ r ih =>
    intro x e h
    simp only [perceiverLayers, bind, Except.bind] at h
    cases h1 : callPyModule (.preNormAttn m.latent_dim m.input_dim) x (some dataSh) with
    | error e1 => rw [h1] at h; simp at h; subst h; exact callPyModule_no_assert _ _ _ _ h1
    | ok y =>
      rw [h1] at h
      try dsimp only at h
      cases h2 : addResidual y x with
      | error e2 => rw [h2] at h; simp at h; subst h; exact addResidual_no_assert _ _ _ h2
      | ok x1 =>
        rw [h2] at h
        try dsimp only at h
        cases h3 : callPyModule (.preNormFF m.latent_dim) x1 none with
        | error e3 => rw [h3] at h; simp at h; subst h; exact callPyModule_no_assert _ _ _ _ h3
        | ok y2 =>
          rw [h3] at h
          try dsimp only at h
          cases h4 : addResidual y2 x1 with
          | error e4 => rw [h4] at h; simp at h; subst h; exact addResidual_no_assert _ _ _ h4
          | ok x2 =>
            rw [h4] at h
            try dsimp only at h
            cases h5 : perceiverSelfBlocks m x2 m.self_per_cross_attn with
            | error e5 =>
              rw [h5] at h; simp at h; subst h
              exact perceiverSelfBlocks_no_assert m _ _ _ h5
            | ok x3 =>
              rw [h5] at h
              try dsimp only at h
              exact ih x3 e h

/-- The inner modality loop of the `MMPerceiver` layer loop never raises an
`AssertionError` (its failures are `IndexError`, `TypeError`,
`NotImplementedError` or
`RuntimeError`). -/
theorem mmInner_no_assert (layers : List PyModule) (ts : List PyTensor) :
    ∀ (r i : Nat) (x : List Nat) (e : PyErr),
    mmInner layers ts r i x = .error e → e.isAssert = false := by
  intro r
  induction r with
  | zero => intro i x e h; simp [mmInner] at h
  | succ r ih =>
    intro i x e h
    simp only [mmInner, bind, Except.bind] at h
    cases hca : layers.get? (2 * i) with
    | none => rw [hca] at h; simp at h; subst h; rfl
    | some ca =>
      rw [hca] at h
      try dsimp only at h
      cases hcf : layers.get? (2 * i + 1) with
      | none => rw [hcf] at h; simp at h; subst h; rfl
      | some cf =>
        rw [hcf] at h
        try dsimp only at h
        cases hctx : ts.get? i with
        | none => rw [hctx] at h; simp at h; subst h; rfl
        | some ctx =>
          rw [hctx] at h
          try dsimp only at h
          cases h1 : callPyModule ca x (some ctx.shape) with
          | error e1 => rw [h1] at h; simp at h; subst h; exact callPyModule_no_assert _ _ _ _ h1
          | ok y =>
            rw [h1] at h
            try dsimp only at h
            cases h2 : addResidual y x with
            | error e2 => rw [h2] at h; simp at h; subst h; exact addResidual_no_assert _ _ _ h2
            | ok x1 =>
              rw [h2] at h
              try dsimp only at h
              cases h3 : callPyModule cf x1 none with
              | error e3 => rw [h3] at h; simp at h; subst h; exact callPyModule_no_assert _ _ _ _ h3
              | ok y2 =>
                rw [h3] at h
                try dsimp only at h
                cases h4 : addResidual y2 x1 with
                | error e4 => rw [h4] at h; simp at h; subst h; exact addResidual_no_assert _ _ _ h4
                | ok x2 =>
                  rw [h4] at h
                  try dsimp only at h
                  exact ih (i + 1) x2 e h

/-- The body of `for layer in self.layers` never raises an
`AssertionError`. -/
theorem mmLayerBody_no_assert (m : MMModel) (ts : List PyTensor) (x : List Nat)
    (e : PyErr) (h : mmLayerBody m ts x = .error e) : e.isAssert = false := by
  simp only [mmLayerBody, bind, Except.bind] at h
  cases h1 : mmInner m.layers ts m.modalities 0 x with
  | error e1 => rw [h1] at h; simp at h; subst h; exact mmInner_no_assert _ _ _ _ _ _ h1
  | ok x1 =>
    rw [h1] at h
    try dsimp only at h
    cases hlast : m.layers.getLast? with
    | none => rw [hlast] at h; simp at h; subst h; rfl
    | some lastLayer =>
      rw [hlast] at h
      try dsimp only at h
      cases lastLayer with
      | mlist ms =>
        match ms, h with
        | [], h => simp at h; subst h; rfl
        | [a], h => simp at h; subst h; rfl
        | [sa, sf], h =>
          simp only at h
          cases h2 : callPyModule sa x1 none with
          | error e2 => rw [h2] at h; simp at h; subst h; exact callPyModule_no_assert _ _ _ _ h2
          | ok y =>
            rw [h2] at h
            try dsimp only at h
            cases h3 : addResidual y x1 with
            | error e3 => rw [h3] at h; simp at h; subst h; exact addResidual_no_assert _ _ _ h3
            | ok x2 =>
              rw [h3] at h
              try dsimp only at h
              cases h4 : callPyModule sf x2 none with
              | error e4 => rw [h4] at h; simp at h; subst h; exact callPyModule_no_assert _ _ _ _ h4
              | ok y2 =>
                rw [h4] at h
                try dsimp only at h
                exact addResidual_no_assert _ _ _ h
        | a :: b :: c :: rest, h => simp at h; subst h; rfl
      | preNormAttn qd cd => simp at h; subst h; rfl
      | preNormSelfAttn d => simp at h; subst h; rfl
      | preNormFF d => simp at h; subst h; rfl

/-- The `MMPerceiver` layer loop never raises an `AssertionError`. -/
theorem mmLayerLoop_no_assert (m : MMModel) (ts : List PyTensor) :
    ∀ (r : Nat) (x : List Nat) (e : PyErr),
    mmLayerLoop m ts r x = .error e → e.isAssert = false := by
  intro r
  induction r with
  | zero => intro x e h; simp [mmLayerLoop] at h
  | succ r ih =>
    intro x e h
    simp only [mmLayerLoop, bind, Except.bind] at h
    cases h1 : mmLayerBody m ts x with
    | error e1 => rw [h1] at h; simp at h; subst h; exact mmLayerBody_no_assert _ _ _ _ h1
    | ok x1 =>
      rw [h1] at h
      try dsimp only at h
      exact ih x1 e h

/-- If the first `k` preprocessing steps succeed, the loop reaches
iteration `i + k` with the entries from `i + k` on still untouched. -/
theorem mmPreLoop_skip (sin cos : ℚ → ℚ) (piQ : ℚ) (m : MMModel) :
    ∀ (k fuel i : Nat) (ts : List PyTensor) (b0 : Option Nat),
    (∀ j, j < k → mmStepOkAt sin cos piQ m (i + j) ts = true) →
    k ≤ fuel →
    ∃ ts2 b2, mmPreLoop sin cos piQ m fuel i ts b0 =
        mmPreLoop sin cos piQ m (fuel - k) (i + k) ts2 b2 ∧
      (∀ n, i + k ≤ n → ts2.get? n = ts.get? n) := by
  intro k
  induction k with
  | zero =>
    intro fuel i ts b0 hok hle
    exact ⟨ts, b0, by simp, fun n _ => rfl⟩
  | succ k ih =>
    intro fuel i ts b0 hok hle
    have h0 := hok 0 (by omega)
    unfold mmStepOkAt at h0
    rw [Nat.add_zero] at h0
    cases hget : ts.get? i with
    | none => rw [hget] at h0; simp at h0
    | some t =>
      rw [hget] at h0
      try dsimp only at h0
      cases hstep : mmStepTensor sin cos piQ m i t with
      | error e => rw [hstep] at h0; simp [exIsOk] at h0
      | ok u =>
        have hrank : ¬ t.shape.length < 2 := by
          intro hlt
          simp only [mmStepTensor, bind, Except.bind] at hstep
          rw [if_pos hlt] at hstep
          exact absurd hstep (by simp)
        obtain ⟨fuel2, hf⟩ : ∃ f2, fuel = f2 + 1 := ⟨fuel - 1, by omega⟩
        subst hf
        have hone : mmPreLoop sin cos piQ m (fuel2 + 1) i ts b0 =
            mmPreLoop sin cos piQ m fuel2 (i + 1) (ts.set i u) (some (t.shape.headD 0)) := by
          simp only [mmPreLoop]
          rw [hget]
          try dsimp only
          rw [if_neg hrank, hstep]
        have hok2 : ∀ j, j < k → mmStepOkAt sin cos piQ m (i + 1 + j) (ts.set i u) = true := by
          intro j hj
          have hj2 := hok (j + 1) (by omega)
          unfold mmStepOkAt at hj2 ⊢
          rw [show i + (j + 1) = i + 1 + j from by omega] at hj2
          rw [List.get?_eq_getElem?, List.getElem?_set_ne (by omega : i ≠ i + 1 + j),
            ← List.get?_eq_getElem?]
          exact hj2
        obtain ⟨ts2, b2, heq, hpres⟩ :=
          ih fuel2 (i + 1) (ts.set i u) (some (t.shape.headD 0)) hok2 (by omega)
        refine ⟨ts2, b2, ?_, ?_⟩
        · rw [hone, heq, show fuel2 - k = fuel2 + 1 - (k + 1) from by omega,
            show i + 1 + k = i + (k + 1) from by omega]
        · intro n hn
          rw [hpres n (by omega), List.get?_eq_getElem?,
            List.getElem?_set_ne (by omega : i ≠ n), ← List.get?_eq_getElem?]

/-- A preprocessing step whose tensor's spatial axis count disagrees with
the configured (tuple-valued) axes raises exactly the assert of source
lines 388-389, whose message names modality `i + 1`. -/
theorem mmStepTensor_axis_mismatch (sin cos : ℚ → ℚ) (piQ : ℚ) (m : MMModel)
    (i : Nat) (t : PyTensor) (tup : List Nat)
    (hrank : ¬ t.shape.length < 2)
    (hax : m.input_axes.get? i = some (.tuple tup))
    (hmm : ((t.shape.drop 1).dropLast).length ≠ tup.length) :
    mmStepTensor sin cos piQ m i t = .error (.assertionError (mmAxisMsg i)) := by
  simp only [mmStepTensor, bind, Except.bind]
  rw [if_neg hrank, hax]
  try dsimp only
  simp only [pyLenAx]
  try dsimp only
  rw [if_neg hmm]

/-- C9: forward fails immediately whenever an input tensor's count of
non-batch, non-channel axes disagrees with the configured axis count.
`Perceiver.forward` raises the assert whose message embeds `len(axis)` and
`input_axis`; `MMPerceiver.forward` raises, at the first modality `i`
whose axis count disagrees with its configured axes, the assert whose
message names modality `i + 1`.  When the axis counts agree
(respectively, when the whole preprocessing loop passes), no
`AssertionError` is raised. -/
theorem axis_count_checks :
    (∀ (pm : PerceiverModel) (ds : List Nat) (re : Bool),
      2 ≤ ds.length →
      ((ds.drop 1).dropLast).length ≠ pm.input_axis →
      perceiverForward pm ds re =
        .error (.assertionError
          (perceiverAxisMsg ((ds.drop 1).dropLast).length pm.input_axis))) ∧
    (∀ (pm : PerceiverModel) (ds : List Nat) (re : Bool) (s : String),
      ((ds.drop 1).dropLast).length = pm.input_axis →
      perceiverForward pm ds re ≠ .error (.assertionError s)) ∧
    (∀ (sin cos : ℚ → ℚ) (piQ : ℚ) (m : MMModel) (ts : List PyTensor) (re : Bool)
        (i : Nat) (t : PyTensor) (tup : List Nat),
      i < m.modalities →
      (∀ j, j < i → mmStepOkAt sin cos piQ m j ts = true) →
      ts.get? i = some t →
      2 ≤ t.shape.length →
      m.input_axes.get? i = some (.tuple tup) →
      ((t.shape.drop 1).dropLast).length ≠ tup.length →
      (mmForward sin cos piQ m ts re).1 = .error (.assertionError (mmAxisMsg i))) ∧
    (∀ (sin cos : ℚ → ℚ) (piQ : ℚ) (m : MMModel) (ts : List PyTensor) (re : Bool)
        (s : String),
      mmPreOk sin cos piQ m ts = true →
      (mmForward sin cos piQ m ts re).1 ≠ .error (.assertionError s)) := by
  refine ⟨?_, ?_, ?_, ?_⟩
  · intro pm ds re hrank hne
    simp only [perceiverForward, bind, Except.bind]
    rw [if_neg (by omega : ¬ ds.length < 2)]
    try dsimp only
    rw [if_neg hne]
  · intro pm ds re s heq hcontra
    by_cases hrank : ds.length < 2
    · simp only [perceiverForward, bind, Except.bind] at hcontra
      rw [if_pos hrank] at hcontra
      simp at hcontra
    · simp only [perceiverForward, bind, Except.bind] at hcontra
      rw [if_neg hrank] at hcontra
      try dsimp only at hcontra
      rw [if_pos heq] at hcontra
      split at hcontra
      · split at hcontra
        · simp at hcontra
        · split at hcontra
          · rename_i err heqy
            injection hcontra with hc
            subst hc
            have hna := perceiverLayers_no_assert pm _ _ _ _ heqy
            simp [PyErr.isAssert] at hna
          · split at hcontra
            · simp at hcontra
            · split at hcontra <;> simp at hcontra
      · split at hcontra
        · rename_i err heqy
          injection hcontra with hc
          subst hc
          have hna := perceiverLayers_no_assert pm _ _ _ _ heqy
          simp [PyErr.isAssert] at hna
        · split at hcontra
          · simp at hcontra
          · split at hcontra <;> simp at hcontra
  · intro sin cos piQ m ts re i t tup hi hsteps hget hrank hax hne
    obtain ⟨ts2, b2, heq, hpres⟩ := mmPreLoop_skip sin cos piQ m i m.modalities 0 ts none
      (fun j hj => by rw [Nat.zero_add]; exact hsteps j hj) (by omega)
    simp only [Nat.zero_add] at heq hpres
    simp only [mmForward]
    rw [heq]
    obtain ⟨f2, hf⟩ : ∃ f2, m.modalities - i = f2 + 1 := ⟨m.modalities - i - 1, by omega⟩
    rw [hf]
    have hget2 : ts2.get? i = some t := by rw [hpres i (by omega), hget]
    simp only [mmPreLoop]
    rw [hget2]
    try dsimp only
    rw [if_neg (by omega : ¬ t.shape.length < 2)]
    rw [mmStepTensor_axis_mismatch sin cos piQ m i t tup (by omega) hax hne]
  · intro sin cos piQ m ts re s hpre hcontra
    unfold mmPreOk at hpre
    rcases hp : mmPreLoop sin cos piQ m m.modalities 0 ts none with ⟨res, ts2⟩
    rw [hp] at hpre
    try dsimp only at hpre
    simp only [mmForward] at hcontra
    rw [hp] at hcontra
    cases res with
    | error e => simp [exIsOk] at hpre
    | ok bopt =>
      try dsimp only at hcontra
      cases bopt with
      | none => simp at hcontra
      | some b =>
        try dsimp only at hcontra
        cases hll : mmLayerLoop m ts2 m.layers.length [b, m.num_latents, m.latent_dim] with
        | error e =>
          rw [hll] at hcontra
          try dsimp only at hcontra
          injection hcontra with hc
          subst hc
          have hna := mmLayerLoop_no_assert m ts2 _ _ _ hll
          simp [PyErr.isAssert] at hna
        | ok x =>
          rw [hll] at hcontra
          try dsimp only at hcontra
          cases re <;> simp at hcontra

set_option maxRecDepth 16384 in
/-- Witness for C9 at concrete models and tensors: the mismatching calls
raise exactly the asserts (the multimodal message naming modality 2), the
matching calls raise no assert. -/
theorem axis_count_checks_witness :
    perceiverForward pmAxes3 [2, 3, 4, 5] false =
      .error (.assertionError (perceiverAxisMsg 2 3)) ∧
    perceiverForward pmAxes2 [2, 3, 4, 5] false ≠
      .error (.assertionError (perceiverAxisMsg 2 2)) ∧
    (mmForward zf zf 0 mMix [tList, tMix] false).1 =
      .error (.assertionError (mmAxisMsg 1)) ∧
    (mmForward zf zf 0 mNoF [tList] false).1 ≠
      .error (.assertionError (mmAxisMsg 0)) :=
  ⟨axis_count_checks.1 pmAxes3 [2, 3, 4, 5] false (by decide) (by decide),
   axis_count_checks.2.1 pmAxes2 [2, 3, 4, 5] false (perceiverAxisMsg 2 2) (by decide),
   axis_count_checks.2.2.1 zf zf 0 mMix [tList, tMix] false 1 tMix [4, 5]
     (by decide)
     (fun j hj => by
       have hj0 : j = 0 := by omega
       subst hj0
       decide)
     (by decide) (by decide) (by decide) (by decide),
   axis_count_checks.2.2.2 zf zf 0 mNoF [tList] false (mmAxisMsg 0) (by decide)⟩

/-- Peeling one pair off the front of `pairsFrom`. -/
theorem pairsFrom_succ (n r : Nat) :
    pairsFrom n (r + 1) = (n, n + 1) :: pairsFrom (n + 2) r := by
  simp only [pairsFrom, List.range_succ_eq_map, List.map_cons, List.map_map]
  refine congrArg₂ List.cons (by simp) ?_
  apply List.map_congr_left
  intro t _
  simp only [Function.comp_apply, Prod.mk.injEq]
  omega

/-- An uncached self-attention loop hands out consecutive ids and leaves
all four caches untouched. -/
theorem pBuildSelf_nocache (S : Nat) :
    ∀ (bi : Nat) (st : PSt),
    (pBuildSelf false S bi st).1 = pairsFrom st.nextId S ∧
    (pBuildSelf false S bi st).2.nextId = st.nextId + 2 * S ∧
    (pBuildSelf false S bi st).2.la = st.la ∧
    (pBuildSelf false S bi st).2.lf = st.lf ∧
    (pBuildSelf false S bi st).2.ca = st.ca ∧
    (pBuildSelf false S bi st).2.cf = st.cf := by
  induction S with
  | zero =>
    intro bi st
    simp [pBuildSelf, pairsFrom]
  | succ S ih =>
    intro bi st
    obtain ⟨ih1, ih2, ih3, ih4, ih5, ih6⟩ :=
      ih (bi + 1) { st with nextId := st.nextId + 1 + 1 }
    try dsimp only at ih1 ih2 ih3 ih4 ih5 ih6
    simp only [pBuildSelf, idCall, Bool.false_eq_true, if_false]
    try dsimp only
    refine ⟨?_, ?_, ?_, ?_, ?_, ?_⟩
    · rw [ih1, pairsFrom_succ]
    · rw [ih2]; omega
    · rw [ih3]
    · rw [ih4]
    · rw [ih5]
    · rw [ih6]

/-- Layer index 0 (where `should_cache` is `False` whatever the tie flag):
fresh ids `0 .. 2*S+1`, caches left empty. -/
theorem pBuildLayer_zero (S : Nat) (tie : Bool) :
    pBuildLayer S tie 0 ⟨0, [], [], [], []⟩ =
      (⟨pairsFrom 0 S, 2 * S, 2 * S + 1⟩, ⟨2 * S + 2, [], [], [], []⟩) := by
  obtain ⟨h1, h2, h3, h4, h5, h6⟩ := pBuildSelf_nocache S 0 ⟨0, [], [], [], []⟩
  simp only [pBuildLayer]
  rw [show (decide (0 < 0) && tie) = false from by simp]
  rcases hself : pBuildSelf false S 0 ⟨0, [], [], [], []⟩ with ⟨selfs, st1⟩
  rw [hself] at h1 h2 h3 h4 h5 h6
  try dsimp only at h1 h2 h3 h4 h5 h6 ⊢
  simp only [idCall, Bool.false_eq_true, if_false]
  try dsimp only
  rw [h1, h2, h5, h6]
  simp [h3, h4]

/-- A lookup that succeeds keeps succeeding with the same id after any
further `idCall` on the same cache. -/
theorem idCall_pres (k : Option Nat) (c : ICache) (v : Nat)
    (h : icLookup k c = some v) (uc : Bool) (key : Option Nat) (n : Nat) :
    icLookup k (idCall uc key c n).2.1 = some v := by
  simp only [idCall]
  split
  · split
    · exact h
    · rename_i hmiss
      simp only [icLookup]
      split
      · rename_i hk
        subst hk
        rw [h] at hmiss
        exact absurd hmiss (by simp)
      · exact h
  · exact h

/-- The id handed out by a cached `idCall` is recorded in the resulting
cache. -/
theorem idCall_hit_after (key : Option Nat) (c : ICache) (n : Nat) :
    icLookup key (idCall true key c n).2.1 = some (idCall true key c n).1 := by
  simp only [idCall, if_pos rfl]
  cases hl : icLookup key c with
  | some v => simp [hl]
  | none =>
    simp only [hl]
    try dsimp only
    simp [icLookup]

/-- A cached self-attention loop preserves existing cache entries and
never touches the cross caches. -/
theorem pBuildSelf_pres (S : Nat) :
    ∀ (bi : Nat) (st : PSt),
    (∀ k v, icLookup k st.la = some v →
      icLookup k (pBuildSelf true S bi st).2.la = some v) ∧
    (∀ k v, icLookup k st.lf = some v →
      icLookup k (pBuildSelf true S bi st).2.lf = some v) ∧
    (pBuildSelf true S bi st).2.ca = st.ca ∧
    (pBuildSelf true S bi st).2.cf = st.cf := by
  induction S with
  | zero => intro bi st; exact ⟨fun k v h => h, fun k v h => h, rfl, rfl⟩
  | succ S ih =>
    intro bi st
    simp only [pBuildSelf]
    rcases ha : idCall true (some bi) st.la st.nextId with ⟨a, la1, n1⟩
    rcases hf : idCall true (some bi) st.lf n1 with ⟨f, lf1, n2⟩
    try dsimp only
    obtain ⟨p1, p2, p3, p4⟩ := ih (bi + 1) { st with nextId := n2, la := la1, lf := lf1 }
    try dsimp only at p1 p2 p3 p4
    refine ⟨?_, ?_, p3, p4⟩
    · intro k v hk
      refine p1 k v ?_
      have := idCall_pres k st.la v hk true (some bi) st.nextId
      rw [ha] at this
      exact this
    · intro k v hk
      refine p2 k v ?_
      have := idCall_pres k st.lf v hk true (some bi) n1
      rw [hf] at this
      exact this

/-- Replay: running the cached self-attention loop again from any state
whose latent caches equal the caches left by a first run returns the very
same blocks and leaves the state untouched — every lookup hits. -/
theorem pBuildSelf_replay (S : Nat) :
    ∀ (bi : Nat) (st t : PSt),
    t.la = (pBuildSelf true S bi st).2.la →
    t.lf = (pBuildSelf true S bi st).2.lf →
    pBuildSelf true S bi t = ((pBuildSelf true S bi st).1, t) := by
  induction S with
  | zero => intro bi st t hla hlf; simp [pBuildSelf]
  | succ S ih =>
    intro bi st t hla hlf
    rcases ha : idCall true (some bi) st.la st.nextId with ⟨a, la1, n1⟩
    rcases hf : idCall true (some bi) st.lf n1 with ⟨f, lf1, n2⟩
    rcases hrest : pBuildSelf true S (bi + 1) { st with nextId := n2, la := la1, lf := lf1 }
      with ⟨rest, stF⟩
    have hrun : pBuildSelf true (S + 1) bi st = ((a, f) :: rest, stF) := by
      simp only [pBuildSelf]
      rw [ha]
      try dsimp only
      rw [hf]
      try dsimp only
      rw [hrest]
    have hha : icLookup (some bi) la1 = some a := by
      have := idCall_hit_after (some bi) st.la st.nextId
      rw [ha] at this
      exact this
    have hhf : icLookup (some bi) lf1 = some f := by
      have := idCall_hit_after (some bi) st.lf n1
      rw [hf] at this
      exact this
    obtain ⟨p1, p2, p3, p4⟩ := pBuildSelf_pres S (bi + 1)
      { st with nextId := n2, la := la1, lf := lf1 }
    rw [hrest] at p1 p2
    try dsimp only at p1 p2
    rw [hrun] at hla hlf
    try dsimp only at hla hlf
    have hfa : icLookup (some bi) t.la = some a := by
      rw [hla]
      exact p1 (some bi) a hha
    have hff : icLookup (some bi) t.lf = some f := by
      rw [hlf]
      exact p2 (some bi) f hhf
    have hta : idCall true (some bi) t.la t.nextId = (a, t.la, t.nextId) := by
      simp [idCall, hfa]
    have htf : idCall true (some bi) t.lf t.nextId = (f, t.lf, t.nextId) := by
      simp [idCall, hff]
    have hrec := ih (bi + 1) { st with nextId := n2, la := la1, lf := lf1 } t
      (by rw [hla, hrest]) (by rw [hlf, hrest])
    rw [hrest] at hrec
    try dsimp only at hrec
    rw [hrun]
    try dsimp only
    simp only [pBuildSelf]
    rw [hta]
    try dsimp only
    rw [htf]
    try dsimp only
    rw [hrec]

/-- Replay at the layer level: for layer indices `i, j ≥ 1` (both cached),
rebuilding from the state a cached layer build left behind reproduces the
identical layer and leaves the state fixed. -/
theorem pBuildLayer_replay (S i j : Nat) (hi : 1 ≤ i) (hj : 1 ≤ j) (st : PSt) :
    pBuildLayer S true j ((pBuildLayer S true i st).2) =
      ((pBuildLayer S true i st).1, (pBuildLayer S true i st).2) := by
  have hui : (decide (0 < i) && true) = true := by simp; omega
  have huj : (decide (0 < j) && true) = true := by simp; omega
  rcases hself : pBuildSelf true S 0 st with ⟨selfs, st1⟩
  rcases hca : idCall true none st1.ca st1.nextId with ⟨cA, ca1, n1⟩
  rcases hcf : idCall true none st1.cf n1 with ⟨cF, cf1, n2⟩
  have hrun : pBuildLayer S true i st =
      (⟨selfs, cA, cF⟩, { st1 with nextId := n2, ca := ca1, cf := cf1 }) := by
    simp only [pBuildLayer, hui]
    rw [hself]
    try dsimp only
    rw [hca]
    try dsimp only
    rw [hcf]
  rw [hrun]
  try dsimp only
  have hreplay := pBuildSelf_replay S 0 st { st1 with nextId := n2, ca := ca1, cf := cf1 }
    (by rw [hself]) (by rw [hself])
  rw [hself] at hreplay
  try dsimp only at hreplay
  have hhca : icLookup none ca1 = some cA := by
    have := idCall_hit_after none st1.ca st1.nextId
    rw [hca] at this
    exact this
  have hhcf : icLookup none cf1 = some cF := by
    have := idCall_hit_after none st1.cf n1
    rw [hcf] at this
    exact this
  simp only [pBuildLayer, huj]
  rw [hreplay]
  try dsimp only
  have hca2 : idCall true none ca1 n2 = (cA, ca1, n2) := by simp [idCall, hhca]
  have hcf2 : idCall true none cf1 n2 = (cF, cf1, n2) := by simp [idCall, hhcf]
  rw [hca2]
  try dsimp only
  rw [hcf2]

/-- From the state left by the first cached layer (index 1) on, every
further cached layer build returns the same layer and the same state, so
the remaining layers are all copies of layer 1. -/
theorem pBuildLayers_fix (S : Nat) (st1 : PSt) :
    ∀ (r i : Nat), 1 ≤ i →
    pBuildLayers S true r i ((pBuildLayer S true 1 st1).2) =
      List.replicate r ((pBuildLayer S true 1 st1).1) := by
  intro r
  induction r with
  | zero => intro i hi; simp [pBuildLayers]
  | succ r ih =>
    intro i hi
    simp only [pBuildLayers]
    rw [pBuildLayer_replay S 1 i (by omega) hi st1]
    try dsimp only
    rw [ih (i + 1) (by omega)]
    simp [List.replicate_succ]

/-- With weight tying, every layer at an index `j ≥ 1` is the layer built
at index 1. -/
theorem pInitLayers_get_pos (depth S j : Nat) (h1 : 1 ≤ j) (h2 : j < depth) :
    (pInitLayers depth S true).get? j =
      some ((pBuildLayer S true 1 ((pBuildLayer S true 0 ⟨0, [], [], [], []⟩).2)).1) := by
  obtain ⟨d, rfl⟩ : ∃ d, depth = d + 1 := ⟨depth - 1, by omega⟩
  obtain ⟨d2, rfl⟩ : ∃ d2, d = d2 + 1 := ⟨d - 1, by omega⟩
  simp only [pInitLayers, pBuildLayers]
  rcases h0 : pBuildLayer S true 0 ⟨0, [], [], [], []⟩ with ⟨l0, st1⟩
  try dsimp only
  rcases hL1 : pBuildLayer S true 1 st1 with ⟨L1, st2⟩
  try dsimp only
  have hfix := pBuildLayers_fix S st1 d2 2 (by omega)
  rw [hL1] at hfix
  try dsimp only at hfix
  rw [hfix]
  obtain ⟨j2, rfl⟩ : ∃ j2, j = j2 + 1 := ⟨j - 1, by omega⟩
  simp only [List.get?_cons_succ]
  cases j2 with
  | zero => simp
  | succ j3 =>
    simp only [List.get?_cons_succ]
    rw [List.get?_eq_getElem?, List.getElem?_replicate, if_pos (by omega : j3 < d2)]

/-- With `depth ≥ 1`, layer 0 is the uncached block set with ids
`0 .. 2*S+1`. -/
theorem pInitLayers_get_zero (depth S : Nat) (h : 0 < depth) :
    (pInitLayers depth S true).get? 0 =
      some ⟨pairsFrom 0 S, 2 * S, 2 * S + 1⟩ := by
  obtain ⟨d, rfl⟩ : ∃ d, depth = d + 1 := ⟨depth - 1, by omega⟩
  simp only [pInitLayers, pBuildLayers]
  rw [pBuildLayer_zero]
  rfl

/-- `idCall` keeps ids at or above a floor: if every cached id and the
counter are at least `c`, so are the returned id, the new cache's ids and
the new counter. -/
theorem idCall_ge (c : Nat) (uc : Bool) (key : Option Nat) (cache : ICache)
    (n : Nat) (hcache : ∀ k v, icLookup k cache = some v → c ≤ v) (hn : c ≤ n) :
    c ≤ (idCall uc key cache n).1 ∧
    (∀ k v, icLookup k (idCall uc key cache n).2.1 = some v → c ≤ v) ∧
    c ≤ (idCall uc key cache n).2.2 := by
  simp only [idCall]
  split
  · cases hl : icLookup key cache with
    | some v =>
      simp only [hl]
      exact ⟨hcache key v hl, hcache, hn⟩
    | none =>
      simp only [hl]
      refine ⟨hn, ?_, by omega⟩
      intro k v hk
      simp only [icLookup] at hk
      split at hk
      · injection hk with hk2; omega
      · exact hcache k v hk
  · exact ⟨hn, hcache, by show c ≤ n + 1; omega⟩

/-- The cached self-attention loop keeps ids at or above a floor. -/
theorem pBuildSelf_ge (c : Nat) (uc : Bool) (S : Nat) :
    ∀ (bi : Nat) (st : PSt),
    (∀ k v, icLookup k st.la = some v → c ≤ v) →
    (∀ k v, icLookup k st.lf = some v → c ≤ v) →
    c ≤ st.nextId →
    (∀ p, p ∈ (pBuildSelf uc S bi st).1 → c ≤ p.1 ∧ c ≤ p.2) ∧
    (∀ k v, icLookup k (pBuildSelf uc S bi st).2.la = some v → c ≤ v) ∧
    (∀ k v, icLookup k (pBuildSelf uc S bi st).2.lf = some v → c ≤ v) ∧
    c ≤ (pBuildSelf uc S bi st).2.nextId ∧
    (pBuildSelf uc S bi st).2.ca = st.ca ∧
    (pBuildSelf uc S bi st).2.cf = st.cf := by
  induction S with
  | zero =>
    intro bi st hla hlf hn
    exact ⟨fun p hp => absurd hp (by simp [pBuildSelf]), hla, hlf, hn, rfl, rfl⟩
  | succ S ih =>
    intro bi st hla hlf hn
    obtain ⟨ha1, ha2, ha3⟩ := idCall_ge c uc (some bi) st.la st.nextId hla hn
    rcases ha : idCall uc (some bi) st.la st.nextId with ⟨a, la1, n1⟩
    rw [ha] at ha1 ha2 ha3
    try dsimp only at ha1 ha2 ha3
    obtain ⟨hf1, hf2, hf3⟩ := idCall_ge c uc (some bi) st.lf n1 hlf ha3
    rcases hf : idCall uc (some bi) st.lf n1 with ⟨f, lf1, n2⟩
    rw [hf] at hf1 hf2 hf3
    try dsimp only at hf1 hf2 hf3
    obtain ⟨r1, r2, r3, r4, r5, r6⟩ :=
      ih (bi + 1) { st with nextId := n2, la := la1, lf := lf1 } ha2 hf2 hf3
    try dsimp only at r1 r2 r3 r4 r5 r6
    simp only [pBuildSelf]
    rw [ha]
    try dsimp only
    rw [hf]
    try dsimp only
    refine ⟨?_, r2, r3, r4, r5, r6⟩
    intro p hp
    simp only [List.mem_cons] at hp
    rcases hp with hp | hp
    · subst hp
      exact ⟨ha1, hf1⟩
    · exact r1 p hp

/-- A whole layer build keeps ids at or above a floor. -/
theorem pBuildLayer_ge (c S i : Nat) (tie : Bool) (st : PSt)
    (hla : ∀ k v, icLookup k st.la = some v → c ≤ v)
    (hlf : ∀ k v, icLookup k st.lf = some v → c ≤ v)
    (hca : ∀ k v, icLookup k st.ca = some v → c ≤ v)
    (hcf : ∀ k v, icLookup k st.cf = some v → c ≤ v)
    (hn : c ≤ st.nextId) :
    ∀ a, a ∈ ((pBuildLayer S tie i st).1).ids → c ≤ a := by
  obtain ⟨r1, r2, r3, r4, r5, r6⟩ :=
    pBuildSelf_ge c (decide (0 < i) && tie) S 0 st hla hlf hn
  rcases hself : pBuildSelf (decide (0 < i) && tie) S 0 st with ⟨selfs, st1⟩
  rw [hself] at r1 r2 r3 r4 r5 r6
  try dsimp only at r1 r2 r3 r4 r5 r6
  obtain ⟨ca1, ca2, ca3⟩ := idCall_ge c (decide (0 < i) && tie) none st1.ca st1.nextId
    (by rw [r5]; exact hca) r4
  rcases hcall1 : idCall (decide (0 < i) && tie) none st1.ca st1.nextId with ⟨cA, cax, n1⟩
  rw [hcall1] at ca1 ca2 ca3
  try dsimp only at ca1 ca2 ca3
  obtain ⟨cf1, cf2, cf3⟩ := idCall_ge c (decide (0 < i) && tie) none st1.cf n1
    (by rw [r6]; exact hcf) ca3
  rcases hcall2 : idCall (decide (0 < i) && tie) none st1.cf n1 with ⟨cF, cfx, n2⟩
  rw [hcall2] at cf1 cf2 cf3
  try dsimp only at cf1 cf2 cf3
  intro a hmem
  simp only [pBuildLayer] at hmem
  rw [hself] at hmem
  try dsimp only at hmem
  rw [hcall1] at hmem
  try dsimp only at hmem
  rw [hcall2] at hmem
  try dsimp only at hmem
  simp only [PLayer.ids, List.mem_append, List.mem_flatten, List.mem_map] at hmem
  rcases hmem with ⟨l, ⟨p, hp, hl⟩, hal⟩ | hmem
  · subst hl
    simp only [List.mem_cons, List.mem_singleton] at hal
    obtain ⟨hp1, hp2⟩ := r1 p hp
    rcases hal with hal | hal
    · omega
    · simp at hal; omega
  · simp only [List.mem_cons, List.mem_singleton] at hmem
    rcases hmem with hmem | hmem
    · omega
    · simp at hmem; omega

/-- C7: with `weight_tie_layers = True` and enough depth, the four block
kinds stored at every layer index `≥ 1` are the identical instances (the
`cache_fn` caches, keyed on the call's `key` argument — `None` for the
cross blocks, the per-self-attention block index for the latent blocks —
hand back the objects created for layer 1), whereas the blocks of layer 0
(built with `should_cache = False`) are fresh instances shared with no
later layer. -/
theorem perceiver_weight_tying (depth S j k : Nat)
    (hj1 : 1 ≤ j) (hj2 : j < depth) (hk1 : 1 ≤ k) (hk2 : k < depth) :
    (pInitLayers depth S true).get? j = (pInitLayers depth S true).get? k ∧
    (∀ a, a ∈ layerIdsAt depth S true 0 → a ∉ layerIdsAt depth S true j) := by
  constructor
  · rw [pInitLayers_get_pos depth S j hj1 hj2, pInitLayers_get_pos depth S k hk1 hk2]
  · intro a h0 hj
    rw [layerIdsAt, pInitLayers_get_zero depth S (by omega)] at h0
    rw [layerIdsAt, pInitLayers_get_pos depth S j hj1 hj2] at hj
    try dsimp only [Option.elim] at h0 hj
    have hlt : a < 2 * S + 2 := by
      simp only [PLayer.ids, pairsFrom, List.mem_append, List.mem_flatten,
        List.mem_map, List.mem_range] at h0
      rcases h0 with ⟨l, ⟨p, ⟨t, ht, hpt⟩, hl⟩, hal⟩ | h0
      · subst hl
        subst hpt
        simp only [List.mem_cons, List.not_mem_nil, or_false] at hal
        rcases hal with hal | hal <;> omega
      · simp only [List.mem_cons, List.not_mem_nil, or_false] at h0
        rcases h0 with h0 | h0 <;> omega
    have hge : 2 * S + 2 ≤ a := by
      have hzero := pBuildLayer_zero S true
      rw [hzero] at hj
      try dsimp only at hj
      refine pBuildLayer_ge (2 * S + 2) S 1 true ⟨2 * S + 2, [], [], [], []⟩
        ?_ ?_ ?_ ?_ ?_ a hj
      · intro kk v hkk; exact absurd hkk (by simp [icLookup])
      · intro kk v hkk; exact absurd hkk (by simp [icLookup])
      · intro kk v hkk; exact absurd hkk (by simp [icLookup])
      · intro kk v hkk; exact absurd hkk (by simp [icLookup])
      · exact Nat.le_refl _
    omega

/-- Witness for C7 at `depth = 3`, one self-attention block per cross
attention: layers 1 and 2 are the same blocks; layer 0 shares none. -/
theorem perceiver_weight_tying_witness :
    (pInitLayers 3 1 true).get? 1 = (pInitLayers 3 1 true).get? 2 ∧
    (∀ a, a ∈ layerIdsAt 3 1 true 0 → a ∉ layerIdsAt 3 1 true 1) :=
  perceiver_weight_tying 3 1 1 2 (by decide) (by decide) (by decide) (by decide)
